import Mathlib

/-!
# Verification of the mdd data-collection core (`mdd.py`)

A shallow embedding, in Lean 4, of the merging / fallback / traversal logic of
the Manjaro Data Donor's collection script, together with proofs settling the
frozen specification claims.  External effects (subprocess invocations, file
reads, the wall clock) are represented by explicit environment records whose
fields carry each probe's observable outcome; Python exceptions are modelled
with `Except`; Python `None` / strings / numbers flowing through one variable
are modelled by the small dynamic value type `IVal` (numbers as `ℚ`, standing
in for CPython floats, whose exact rounding no claim here depends on).
-/

namespace Mdd

/-- Python exception classes that the embedded code can raise. -/
inductive PyErr where
  | typeError
  | attributeError
  | valueError
  | keyError
  | oserror (msg : String)
  | exception (msg : String)
  | jsonDecodeError
  deriving DecidableEq, Repr

/-- A dynamic value as it appears in the script's dicts: Python `None`,
a string, or a number (CPython floats abstracted as rationals). -/
inductive IVal where
  | vnone
  | vstr (s : String)
  | vnum (q : ℚ)
  deriving DecidableEq, Repr

/-- Python `str.endswith` on code points (the embedding's `String.endsWith`).
-/
def pyEndsWith (s suffix : String) : Bool := suffix.data.isSuffixOf s.data

/-- Python truthiness of an `IVal` (`None`, `""` and `0` are falsy). -/
def IVal.truthy : IVal → Bool
  | .vnone => false
  | .vstr s => s ≠ ""
  | .vnum q => q ≠ 0

/-- The emptiness test `val in (None, "", "N/A")` used by the reconciliation
fills (`get_cpu_info.write_cpu_model`, the xrandr fill loop). -/
def IVal.isEmptyMark : IVal → Bool
  | .vnone => true
  | .vstr s => s = "" || s = "N/A"
  | .vnum _ => false

/-- Python `==` between a dynamic value and a string (`output["mapped"] ==
mapped[0]`, `get_inxi_val(item, "#type") != "USB"`): only a string compares
equal to a string. -/
def IVal.eqStr : IVal → String → Bool
  | .vstr s, t => s == t
  | _, _ => false

/-- A `get_command_output` result as a dict value: `None` stays `None`. -/
def optStrToIVal : Option String → IVal
  | some s => .vstr s
  | none => .vnone

/-! ### Character-level models of the Python string methods the script uses.
All are structural (fuel-counted where needed) so that concrete runs reduce
inside the kernel. -/

/-- Python `str.strip`'s whitespace test (the ASCII whitespace characters). -/
def isPySpace (c : Char) : Bool :=
  c == ' ' || c == '\t' || c == '\n' || c == '\r' || c.toNat == 11 || c.toNat == 12

/-- Python `str.strip()`: drop whitespace from both ends. -/
def pyStrip (s : String) : String :=
  String.mk (((s.data.dropWhile isPySpace).reverse.dropWhile isPySpace).reverse)

/-- Split on a non-empty separator, Python `str.split(sep)` semantics (empty
pieces kept; `"".split(sep) == [""]`).  Fuel: each step consumes at least one
character, so `length + 1` steps always suffice. -/
def splitSepAux (sep : List Char) : Nat → List Char → List Char → List (List Char)
  | 0, acc, l => [acc.reverse ++ l]
  | _ + 1, acc, [] => [acc.reverse]
  | fuel + 1, acc, c :: rest =>
    if sep.isPrefixOf (c :: rest) then
      acc.reverse :: splitSepAux sep fuel [] ((c :: rest).drop sep.length)
    else
      splitSepAux sep fuel (c :: acc) rest

/-- Python `s.split(sep)` for a non-empty `sep`. -/
def pySplit (s sep : String) : List String :=
  (splitSepAux sep.data (s.data.length + 1) [] s.data).map String.mk

/-- Python `s.splitlines()` over `\n`-separated text (the only line ending
the probed tools emit): like `split("\n")` but without a trailing empty
piece, and `[]` for the empty string. -/
def pySplitLines (s : String) : List String :=
  if s = "" then []
  else
    let p := pySplit s "\n"
    if p.getLast? = some "" then p.dropLast else p

/-- Python `s.replace(pat, repl)` for a non-empty `pat`: non-overlapping,
left to right.  Fuel as in `splitSepAux`. -/
def replaceAux (pat repl : List Char) : Nat → List Char → List Char
  | 0, l => l
  | _ + 1, [] => []
  | fuel + 1, c :: rest =>
    if pat.isPrefixOf (c :: rest) then
      repl ++ replaceAux pat repl fuel ((c :: rest).drop pat.length)
    else
      c :: replaceAux pat repl fuel rest

/-- Python `s.replace(pat, repl)` for a non-empty `pat`. -/
def pyReplace (s pat repl : String) : String :=
  String.mk (replaceAux pat.data repl.data s.data.length s.data)

/-- Is `needle` a contiguous sublist of the hay? -/
def isSubList (needle : List Char) : List Char → Bool
  | [] => needle.isEmpty
  | c :: rest => needle.isPrefixOf (c :: rest) || isSubList needle rest

/-- Python `sub in s` substring containment. -/
def pyContains (s sub : String) : Bool := isSubList sub.data s.data

/-- Python `str.lower()` (ASCII case folding; the probed tool names are
ASCII). -/
def pyLower (s : String) : String := String.mk (s.data.map Char.toLower)

/-- Decimal value of a digit run. -/
def digitsToNat (ds : List Char) : Nat := ds.foldl (fun a c => a * 10 + (c.toNat - 48)) 0

/-- Python `int(str)`: strip whitespace, optional sign, non-empty digit run,
else `ValueError`.  (PEP 515 underscore grouping is not modelled; no probed
token contains it.) -/
def pyIntStr (s : String) : Except PyErr Int :=
  let t := ((s.data.dropWhile isPySpace).reverse.dropWhile isPySpace).reverse
  match t with
  | '+' :: ds =>
    if ds ≠ [] ∧ ds.all Char.isDigit then .ok (digitsToNat ds) else .error .valueError
  | '-' :: ds =>
    if ds ≠ [] ∧ ds.all Char.isDigit then .ok (-(digitsToNat ds : Int)) else .error .valueError
  | ds =>
    if ds ≠ [] ∧ ds.all Char.isDigit then .ok (digitsToNat ds) else .error .valueError

/-- Python `float(str)` on the decimal forms the probed tools emit
(`"60"`, `"60.00"`, `".5"`, `"1."`, signed): `none` models `ValueError`.
(Exponent, `inf`/`nan` forms are not modelled; no probed value uses them.) -/
def parsePyFloat (s : String) : Option ℚ :=
  let t := ((s.data.dropWhile isPySpace).reverse.dropWhile isPySpace).reverse
  let (sign, u) : ℚ × List Char :=
    match t with
    | '+' :: r => (1, r)
    | '-' :: r => (-1, r)
    | r => (1, r)
  match splitSepAux ['.'] (u.length + 1) [] u with
  | [ip] =>
    if ip ≠ [] ∧ ip.all Char.isDigit then some (sign * digitsToNat ip) else none
  | [ip, fp] =>
    if (ip ≠ [] ∨ fp ≠ []) ∧ ip.all Char.isDigit ∧ fp.all Char.isDigit then
      some (sign * ((digitsToNat ip : ℚ) + (digitsToNat fp : ℚ) / 10 ^ fp.length))
    else none
  | _ => none

/-- Python `float(val)` applied to a dynamic value (`float(refresh)` in the
graphics monitor scan): converts a number, parses a string (`ValueError` on
failure), `TypeError` on `None`. -/
def pyFloat : IVal → Except PyErr ℚ
  | .vnum q => .ok q
  | .vstr s =>
    match parsePyFloat s with
    | some q => .ok q
    | none => .error .valueError
  | .vnone => .error .typeError

/-- One inxi item: a JSON object, kept as an ordered association list the way
CPython dicts preserve insertion order. -/
abbrev Item := List (String × IVal)

/-- The parsed inxi document: a list of single-category objects, each mapping
prefixed category keys (for example `"004#Graphics"`) to a list of items. -/
abbrev InxiDoc := List (List (String × List Item))

/-- `get_inxi_val(parent, code)`: the value of the first key of `parent`
ending in `code`, and Python `None` when no key matches (the source conflates
"no key" with a JSON `null` value, and so does this embedding). -/
def get_inxi_val (parent : Item) (code : String) : IVal :=
  match parent with
  | [] => .vnone
  | (k, v) :: rest => if pyEndsWith k code then v else get_inxi_val rest code

/-- Scan one JSON object's keys in order for a suffix match (the inner loop
of `get_inxi_main_cat`). -/
def inxiFindKey (code : String) : List (String × List Item) → Option (List Item)
  | [] => none
  | (k, v) :: rest => if pyEndsWith k code then some v else inxiFindKey code rest

/-- The nested key scan of `get_inxi_main_cat` over a parsed document: first
item owning a key that ends in `code`. -/
def inxiFindCat (code : String) : InxiDoc → Option (List Item)
  | [] => none
  | item :: rest =>
    match inxiFindKey code item with
    | some v => some v
    | none => inxiFindCat code rest

/-- `get_inxi_main_cat(code)` reading the run-scoped cache: the global `inxi`
is `None` when the tool was unavailable or failed (`prepare_inxi` lines
49-65), in which case `for item in inxi` raises `TypeError`; on a parsed
document it returns the first category list whose key ends in `code`, else
`None`. -/
def get_inxi_main_cat (inxi : Option InxiDoc) (code : String) :
    Except PyErr (Option (List Item)) :=
  match inxi with
  | none => .error .typeError
  | some doc => .ok (inxiFindCat code doc)

/-! ## Device identity (`get_hashed_device_id`, mdd.py lines 94-103)

The script reads `/etc/machine-id`, strips surrounding whitespace, hashes the
UTF-8 encoding with SHA-256, and reinterprets the first 16 digest bytes as a
version-5-formatted UUID string.  The hash is embedded executably: bytes and
32-bit words are `Nat` with explicit `% 2 ^ 32` / `% 256` reductions. -/

/-- UTF-8 bytes of one code point (`str.encode()` per character). -/
def utf8Char (n : Nat) : List Nat :=
  if n < 0x80 then [n]
  else if n < 0x800 then [0xc0 + n / 64, 0x80 + n % 64]
  else if n < 0x10000 then [0xe0 + n / 4096, 0x80 + n / 64 % 64, 0x80 + n % 64]
  else [0xf0 + n / 262144, 0x80 + n / 4096 % 64, 0x80 + n / 64 % 64, 0x80 + n % 64]

/-- `machine_id.encode()`: UTF-8 bytes of the string. -/
def utf8Bytes (s : String) : List Nat :=
  (s.data.map (fun c => utf8Char c.toNat)).flatten

/-- 32-bit right rotation over `Nat`, reduced mod `2 ^ 32`. -/
def rotr32 (x n : Nat) : Nat := ((x >>> n) ||| (x <<< (32 - n))) % 2 ^ 32

/-- 32-bit bitwise complement via xor with the all-ones mask. -/
def bnot32 (x : Nat) : Nat := 0xffffffff ^^^ x

/-- SHA-256 `Ch`. -/
def shaCh (x y z : Nat) : Nat := (x &&& y) ^^^ (bnot32 x &&& z)

/-- SHA-256 `Maj`. -/
def shaMaj (x y z : Nat) : Nat := (x &&& y) ^^^ (x &&& z) ^^^ (y &&& z)

/-- SHA-256 `Σ₀`. -/
def bsig0 (x : Nat) : Nat := rotr32 x 2 ^^^ rotr32 x 13 ^^^ rotr32 x 22

/-- SHA-256 `Σ₁`. -/
def bsig1 (x : Nat) : Nat := rotr32 x 6 ^^^ rotr32 x 11 ^^^ rotr32 x 25

/-- SHA-256 `σ₀`. -/
def ssig0 (x : Nat) : Nat := rotr32 x 7 ^^^ rotr32 x 18 ^^^ (x >>> 3)

/-- SHA-256 `σ₁`. -/
def ssig1 (x : Nat) : Nat := rotr32 x 17 ^^^ rotr32 x 19 ^^^ (x >>> 10)

/-- The eight-word SHA-256 working state. -/
structure Sha256State where
  a : Nat
  b : Nat
  c : Nat
  d : Nat
  e : Nat
  f : Nat
  g : Nat
  h : Nat
  deriving DecidableEq, Repr

/-- The SHA-256 initial hash state (FIPS 180-4 §5.3.3). -/
def sha256Init : Sha256State :=
  ⟨1779033703, 3144134277, 1013904242, 2773480762, 1359893119,
   2600822924, 528734635, 1541459225⟩

/-- The 64 SHA-256 round constants (FIPS 180-4 §4.2.2). -/
def sha256K : List Nat :=
  [1116352408, 1899447441, 3049323471, 3921009573, 961987163,
   1508970993, 2453635748, 2870763221, 3624381080, 310598401, 607225278,
   1426881987, 1925078388, 2162078206, 2614888103, 3248222580,
   3835390401, 4022224774, 264347078, 604807628, 770255983, 1249150122,
   1555081692, 1996064986, 2554220882, 2821834349, 2952996808,
   3210313671, 3336571891, 3584528711, 113926993, 338241895, 666307205,
   773529912, 1294757372, 1396182291, 1695183700, 1986661051,
   2177026350, 2456956037, 2730485921, 2820302411, 3259730800,
   3345764771, 3516065817, 3600352804, 4094571909, 275423344, 430227734,
   506948616, 659060556, 883997877, 958139571, 1322822218, 1537002063,
   1747873779, 1955562222, 2024104815, 2227730452, 2361852424,
   2428436474, 2756734187, 3204031479, 3329325298]

/-- Big-endian 32-bit word from four bytes. -/
def beWord (b0 b1 b2 b3 : Nat) : Nat :=
  b0 % 256 * 16777216 + b1 % 256 * 65536 + b2 % 256 * 256 + b3 % 256

/-- The sixteen message words of one 64-byte block. -/
def wordsOfBlock : List Nat → List Nat
  | b0 :: b1 :: b2 :: b3 :: rest => beWord b0 b1 b2 b3 :: wordsOfBlock rest
  | _ => []

/-- Append the next message-schedule word (FIPS 180-4 §6.2.2 step 1). -/
def extendW (w : List Nat) : List Nat :=
  w ++ [(ssig1 (w.getD (w.length - 2) 0) + w.getD (w.length - 7) 0 +
         ssig0 (w.getD (w.length - 15) 0) + w.getD (w.length - 16) 0) % 2 ^ 32]

/-- The 64-word message schedule of one block. -/
def msgSchedule (w16 : List Nat) : List Nat := extendW^[48] w16

/-- One SHA-256 round, consuming a `(constant, schedule word)` pair. -/
def sha256Round (st : Sha256State) (kw : Nat × Nat) : Sha256State :=
  let t1 := (st.h + bsig1 st.e + shaCh st.e st.f st.g + kw.1 + kw.2) % 2 ^ 32
  let t2 := (bsig0 st.a + shaMaj st.a st.b st.c) % 2 ^ 32
  ⟨(t1 + t2) % 2 ^ 32, st.a, st.b, st.c, (st.d + t1) % 2 ^ 32, st.e, st.f, st.g⟩

/-- Compress one 64-byte block into the running state. -/
def compressBlock (st : Sha256State) (block : List Nat) : Sha256State :=
  let w := msgSchedule (wordsOfBlock block)
  let r := (sha256K.zip w).foldl sha256Round st
  ⟨(st.a + r.a) % 2 ^ 32, (st.b + r.b) % 2 ^ 32, (st.c + r.c) % 2 ^ 32,
   (st.d + r.d) % 2 ^ 32, (st.e + r.e) % 2 ^ 32, (st.f + r.f) % 2 ^ 32,
   (st.g + r.g) % 2 ^ 32, (st.h + r.h) % 2 ^ 32⟩

/-- Big-endian 8-byte encoding of the message bit length. -/
def lenBytes (n : Nat) : List Nat :=
  [(n >>> 56) % 256, (n >>> 48) % 256, (n >>> 40) % 256, (n >>> 32) % 256,
   (n >>> 24) % 256, (n >>> 16) % 256, (n >>> 8) % 256, n % 256]

/-- SHA-256 padding: `0x80`, zeros to 56 mod 64, then the 64-bit bit length. -/
def shaPad (msg : List Nat) : List Nat :=
  msg ++ 0x80 :: (List.replicate ((120 - (msg.length + 1) % 64) % 64) 0 ++
    lenBytes (msg.length * 8))

/-- Split a byte list into 64-byte chunks (structural recursion on a fuel
bound; `fuel = l.length` always suffices because every step drops 64 > 0
elements of a nonempty list). -/
def chunks64Aux : Nat → List Nat → List (List Nat)
  | 0, _ => []
  | _, [] => []
  | fuel + 1, l => l.take 64 :: chunks64Aux fuel (l.drop 64)

/-- Split a byte list into 64-byte chunks. -/
def chunks64 (l : List Nat) : List (List Nat) := chunks64Aux l.length l

/-- The four big-endian bytes of a 32-bit word. -/
def wordBytes (w : Nat) : List Nat :=
  [(w >>> 24) % 256, (w >>> 16) % 256, (w >>> 8) % 256, w % 256]

/-- Serialize the final state as the 32 digest bytes. -/
def stateBytes (st : Sha256State) : List Nat :=
  wordBytes st.a ++ wordBytes st.b ++ wordBytes st.c ++ wordBytes st.d ++
  wordBytes st.e ++ wordBytes st.f ++ wordBytes st.g ++ wordBytes st.h

/-- SHA-256 digest bytes of a byte string (`hashlib.sha256(...).digest()`). -/
def sha256Bytes (msg : List Nat) : List Nat :=
  stateBytes ((chunks64 (shaPad msg)).foldl compressBlock sha256Init)

/-- Lowercase hex digit. -/
def hexDigitChar (n : Nat) : Char :=
  if n < 10 then Char.ofNat (48 + n) else Char.ofNat (87 + n)

/-- Two lowercase hex characters of a byte. -/
def byteHex (b : Nat) : List Char := [hexDigitChar (b / 16 % 16), hexDigitChar (b % 16)]

/-- `uuid.UUID(bytes=..., version=5)` field surgery: force the version nibble
of byte 6 to `5` and the variant bits of byte 8 to `10`. -/
def setVersion5Variant (b : List Nat) : List Nat :=
  (b.set 6 (b.getD 6 0 % 16 + 0x50)).set 8 (b.getD 8 0 % 64 + 0x80)

/-- `str()` of the UUID: lowercase hex in 8-4-4-4-12 grouping. -/
def uuidStrOfBytes (b : List Nat) : String :=
  let hx := ((setVersion5Variant b).map byteHex).flatten
  String.mk (hx.take 8 ++ '-' :: ((hx.drop 8).take 4) ++ '-' :: ((hx.drop 12).take 4)
    ++ '-' :: ((hx.drop 16).take 4) ++ '-' :: (hx.drop 20))

/-- `get_hashed_device_id` as a function of the `/etc/machine-id` file
content: strip, UTF-8 encode, SHA-256, truncate to 16 bytes, format as a
version-5 UUID string. -/
def get_hashed_device_id (machineIdFile : String) : String :=
  let machine_id := pyStrip machineIdFile
  let hashed := sha256Bytes (utf8Bytes machine_id)
  uuidStrOfBytes (hashed.take 16)

/-- The first sixteen digest bytes, the part of the pipeline that determines
the identifier (`hashed_id[:16]`). -/
def truncDigest (s : String) : List Nat :=
  (sha256Bytes (utf8Bytes (pyStrip s))).take 16

/-- A family of pairwise-distinct machine-id contents. -/
def aSecret (n : Nat) : String := String.mk (List.replicate n 'a')

/-- The identifier-determining data of the `n`-th secret, packed into a
finite type: sixteen digest bytes, each below 256. -/
def pigeonMap (n : Nat) : Fin 16 → Fin 256 := fun i =>
  ⟨(truncDigest (aSecret n)).getD i 0 % 256, Nat.mod_lt _ (by norm_num)⟩


/-! ## Graphics domain (`get_graphics_info`, mdd.py lines 358-487)

The primary probe contributes `outputs` records from the inxi Graphics
category; the xrandr fallback then walks the tool's text output line by
line, filling only still-empty fields of a name-matched record and appending
unmatched records. -/

/-- One entry of the `outputs` list: the six-key dict built per monitor. -/
structure OutputRec where
  model : IVal
  res : IVal
  refresh : IVal
  dpi : IVal
  size : IVal
  mapped : IVal
  deriving DecidableEq, Repr

/-- One entry of the `gpus` list. -/
structure GpuRec where
  vendor : IVal
  model : IVal
  driver : IVal
  deriving DecidableEq, Repr

/-- The dict returned by `get_graphics_info`. -/
structure GraphicsInfo where
  comp : IVal
  dri : IVal
  gpus : List GpuRec
  outputs : List OutputRec
  deriving DecidableEq, Repr

/-- Environment of the graphics domain: the cached inxi document plus each
external command's observable outcome (`none` = the command failed and
`get_command_output` returned its default). -/
structure GraphicsEnv where
  psOut : Option String
  glxinfoWhich : Bool
  glxinfoOut : Option String
  lspciOut : Option String
  xrandrWhich : Bool
  xrandrOut : Option String
  deriving Repr

/-- `get_compositor` (lines 219-232): first process name found in `ps -e`
output, `"unknown"` when none matches or the command raised. -/
def get_compositor (psOut : Option String) : String :=
  match psOut with
  | none => "unknown"
  | some out =>
    (["sway", "compiz", "mutter", "kwin", "xfwm4", "picom", "compton"].find?
      (fun c => pyContains out c)).getD "unknown"

/-- Does the line match `^(\S+) disconnected`?  The greedy `\S+` run must be
the maximal non-whitespace prefix, since the following character is forced to
be a literal space. -/
def isDisconnectedLine (line : String) : Bool :=
  let l := line.data
  let tok := l.takeWhile (fun c => !(isPySpace c))
  !tok.isEmpty && (' ' :: "disconnected".data).isPrefixOf (l.drop tok.length)

/-- Does the line match `^(\S+) connected`? -/
def isConnectedLine (line : String) : Bool :=
  let l := line.data
  let tok := l.takeWhile (fun c => !(isPySpace c))
  !tok.isEmpty && (' ' :: "connected".data).isPrefixOf (l.drop tok.length)

/-- The `\s([\d.]+)\*` part of the active-mode regex, searched rightmost-first
(the greedy `.*` before it backtracks from the end): a whitespace character,
then a maximal non-empty run of digits and dots, then a literal star. -/
def findHzStar : List Char → Option (List Char)
  | [] => none
  | c :: rest =>
    let here : Option (List Char) :=
      if isPySpace c then
        let run := rest.takeWhile (fun ch => ch.isDigit || ch == '.')
        if !run.isEmpty then
          match rest.drop run.length with
          | '*' :: _ => some run
          | _ => none
        else none
      else none
    match findHzStar rest with
    | some r => some r
    | none => here

/-- `re.match(r"^ {3}(\d+x\d+).*\s([\d.]+)\*", line)`: exactly three leading
spaces, a `WxH` resolution (maximal digit runs), then somewhere later a
starred refresh-rate token; yields the two capture groups. -/
def matchMode (line : String) : Option (String × String) :=
  match line.data with
  | ' ' :: ' ' :: ' ' :: rest =>
    let d1 := rest.takeWhile Char.isDigit
    if d1.isEmpty then none
    else
      match rest.drop d1.length with
      | 'x' :: rest2 =>
        let d2 := rest2.takeWhile Char.isDigit
        if d2.isEmpty then none
        else
          match findHzStar (rest2.drop d2.length) with
          | some hz => some (String.mk (d1 ++ 'x' :: d2), String.mk hz)
          | none => none
      | _ => none
  | _ => none

/-- The refresh value parsed from the starred mode token:
`float(...)` with its `ValueError` caught into `None` (lines 444-447). -/
def refreshVal (hz : String) : IVal :=
  match parsePyFloat hz with
  | some q => .vnum q
  | none => .vnone

/-- Fill a single field from the fallback only when the primary value is the
absence marker (`None`, `""` or `"N/A"`) — the xrandr fill-loop guard. -/
def fillIfEmpty (old new : IVal) : IVal := if old.isEmptyMark then new else old

/-- The per-record fill loop (`for key, val in [("res", ...), ("refresh",
...), ("size", ...)]`). -/
def fillOutput (res refresh size : IVal) (o : OutputRec) : OutputRec :=
  { o with
    res := fillIfEmpty o.res res
    refresh := fillIfEmpty o.refresh refresh
    size := fillIfEmpty o.size size }

/-- In-place mutation of the `i`-th list element (the Python dict held by
`inxi_output` aliases the list entry). -/
def modifyAt (i : Nat) (f : OutputRec → OutputRec) : List OutputRec → List OutputRec
  | [] => []
  | o :: rest =>
    match i with
    | 0 => f o :: rest
    | i + 1 => o :: modifyAt i f rest

/-- The physical size string extracted from the tokens of the connected
line: `int(mapped[-3].replace("mm", ""))` by `int(mapped[-1]...)`, and `""`
when the tokens do not parse (`except ValueError`). -/
def modeSize (m : List String) : IVal :=
  if m.length > 2 then
    match pyIntStr (pyReplace (m.getD (m.length - 3) "") "mm" ""),
        pyIntStr (pyReplace (m.getLastD "") "mm" "") with
    | .ok w, .ok h => .vstr (toString w ++ "x" ++ toString h)
    | _, _ => .vstr ""
  else .vstr ""

/-- The loop state of the xrandr scan: the tokens of the last connected
line (`mapped`), the index of the inxi record it matched (`inxi_output`
aliases `outputs[idx]`), and the outputs list. -/
structure XrandrState where
  mapped : Option (List String)
  idx : Option Nat
  outputs : List OutputRec
  deriving DecidableEq, Repr

/-- Process one line of xrandr output (lines 418-480). -/
def xrandrStep (st : XrandrState) (line : String) : Except PyErr XrandrState :=
  if isDisconnectedLine line then .ok { st with mapped := none }
  else if isConnectedLine line then
    let m := pySplit line " "
    .ok { st with
      mapped := some m
      idx := st.outputs.findIdx? (fun o => o.mapped.eqStr (m.headD "")) }
  else
    match matchMode line with
    | none => .ok st
    | some (res, hz) =>
      match st.mapped with
      | none => .error (.exception "matched a mode without being mapped")
      | some m =>
        let refresh := refreshVal hz
        let size := modeSize m
        match st.idx with
        | some i =>
          .ok { st with outputs := modifyAt i (fillOutput (.vstr res) refresh size) st.outputs }
        | none =>
          .ok { st with outputs := st.outputs ++
            [⟨.vstr "", .vstr res, refresh, .vnone, size, .vstr (m.headD "")⟩] }

/-- The xrandr scan over all lines. -/
def xrandrLoop : List String → XrandrState → Except PyErr XrandrState
  | [], st => .ok st
  | line :: rest, st => do xrandrLoop rest (← xrandrStep st line)

/-- The whole xrandr fallback block (line 414: run only when the tool is
installed and its output is truthy). -/
def xrandrSection (which : Bool) (cmdOut : Option String) (outputs : List OutputRec) :
    Except PyErr (List OutputRec) :=
  match (if which then cmdOut else none) with
  | some s =>
    if s = "" then .ok outputs
    else do
      let st ← xrandrLoop (pySplit s "\n") ⟨none, none, outputs⟩
      .ok st.outputs
  | none => .ok outputs

/-- The `"size"` value of an inxi monitor item:
`size.split(" ")[0].replace("mm", "") if size else None`; calling `.split`
on a number raises `AttributeError`. -/
def monitorSizeVal : IVal → Except PyErr IVal
  | .vstr s =>
    if s ≠ "" then .ok (.vstr (pyReplace ((pySplit s " ").headD "") "mm" ""))
    else .ok .vnone
  | .vnum _ => .error .attributeError
  | .vnone => .ok .vnone

/-- The running accumulators of the inxi Graphics item scan. -/
structure GraphicsAcc where
  comp : IVal
  dri : IVal
  gpus : List GpuRec
  outputs : List OutputRec
  deriving Repr

/-- One iteration of `for item in inxi_info` (lines 369-395). -/
def graphicsItemStep (acc : GraphicsAcc) (item : Item) : Except PyErr GraphicsAcc := do
  let acc :=
    if (get_inxi_val item "#Display").truthy then
      { acc with comp := get_inxi_val item "#compositor", dri := get_inxi_val item "#dri" }
    else acc
  let acc :=
    if (get_inxi_val item "#Device").truthy && !((get_inxi_val item "#type").eqStr "USB") then
      { acc with gpus := acc.gpus ++
        [⟨get_inxi_val item "#vendor", get_inxi_val item "#Device", get_inxi_val item "#driver"⟩] }
    else acc
  let monitor_name := get_inxi_val item "#Monitor"
  if monitor_name.truthy then do
    let refreshRaw := get_inxi_val item "#hz"
    let dpiRaw := get_inxi_val item "#dpi"
    let refresh ← if refreshRaw.truthy then (pyFloat refreshRaw).map IVal.vnum else pure .vnone
    let dpi ← if dpiRaw.truthy then (pyFloat dpiRaw).map IVal.vnum else pure .vnone
    let size ← monitorSizeVal (get_inxi_val item "#size")
    let mappedRaw := get_inxi_val item "#mapped"
    return { acc with outputs := acc.outputs ++
      [⟨get_inxi_val item "#model", get_inxi_val item "#res", refresh, dpi, size,
        if mappedRaw.truthy then mappedRaw else monitor_name⟩] }
  else
    return acc

/-- Fold of `graphicsItemStep` over the Graphics items. -/
def graphicsItemsLoop : GraphicsAcc → List Item → Except PyErr GraphicsAcc
  | acc, [] => .ok acc
  | acc, item :: rest => do graphicsItemsLoop (← graphicsItemStep acc item) rest

/-- Python truthiness of the cached inxi document (`if inxi:`): present and
non-empty. -/
def inxiTruthy : Option InxiDoc → Bool
  | some doc => !doc.isEmpty
  | none => false

/-- `get_graphics_info` (lines 358-487): compositor via `ps`, the inxi
Graphics scan when the cache is truthy (`for item in inxi_info` raises
`TypeError` when the Graphics category is missing), then the glxinfo/lspci
GPU fallback and the xrandr output fallback. -/
def get_graphics_info (inxi : Option InxiDoc) (env : GraphicsEnv) :
    Except PyErr GraphicsInfo := do
  let acc0 : GraphicsAcc := ⟨.vstr (get_compositor env.psOut), .vnone, [], []⟩
  let acc ←
    if inxiTruthy inxi then
      match inxiFindCat "#Graphics" (inxi.getD []) with
      | some items => graphicsItemsLoop acc0 items
      | none => .error .typeError
    else pure acc0
  let comp := if acc.comp.truthy then acc.comp else .vstr (get_compositor env.psOut)
  let gpus :=
    if acc.gpus.isEmpty then
      let glxinfo : Option String := if env.glxinfoWhich then env.glxinfoOut else none
      [⟨.vstr "", optStrToIVal env.lspciOut,
        match glxinfo with
        | some g => if g ≠ "" then .vstr ((pySplit g ": ").getLastD "") else .vnone
        | none => .vnone⟩]
    else acc.gpus
  let outputs ← xrandrSection env.xrandrWhich env.xrandrOut acc.outputs
  return ⟨comp, acc.dri, gpus, outputs⟩

/-! ## Audio domain (`get_audio_info`, mdd.py lines 490-556) -/

/-- Python `str.startswith`. -/
def pyStartsWith (s pre : String) : Bool := pre.data.isPrefixOf s.data

/-- Python `line.split(" ", 2)`: at most two splits, remainder kept verbatim
(splitting on every single space and re-interleaving the separator is exact).
-/
def pySplitMax2 (s : String) : List String :=
  match pySplit s " " with
  | a :: b :: c :: rest =>
    if rest.isEmpty then [a, b, c] else [a, b, String.intercalate " " (c :: rest)]
  | l => l

/-- One entry of the `servers` list. -/
structure ServerRec where
  name : String
  active : Bool
  deriving DecidableEq, Repr

/-- The dict returned by `get_audio_info`. -/
structure AudioInfo where
  servers : List ServerRec
  deriving DecidableEq, Repr

/-- Environment of the audio domain: package queries and command outcomes
(`none` = the command failed, so `get_command_output` returned `None`). -/
structure AudioEnv where
  euid0 : Bool
  lastOut : Option String
  suUserIdOut : Option String
  pulseInstalled : Bool
  pipewireInstalled : Bool
  pactlOut : Option String
  pwcliOut : Option String
  deriving Repr

/-- The `pactl info` line scan (lines 524-541): the first `Server Name` line
decides both flags and, when the reported server is PipeWire, prepends an
active PipeWire entry; the PulseAudio entry itself is appended after the
loop.  Returns `(servers, pulseaudio_active, found_pipewire)`. -/
def pulseScan : List String → List ServerRec × Bool × Bool
  | [] => ([⟨"PulseAudio", false⟩], false, false)
  | line :: rest =>
    if pyStartsWith line "Server Name" then
      let name := pyLower ((pySplitMax2 line).getLastD "")
      let active := name == "pulseaudio"
      let fp := pyContains name "pipewire"
      ((if fp then [⟨"PipeWire", true⟩] else []) ++ [⟨"PulseAudio", active⟩], active, fp)
    else pulseScan rest

/-- The sudo-prefix assembly under root (lines 508-512): `None.split`
raises `AttributeError` when `last -wn1` failed, and `str + None` raises
`TypeError` when the user-id lookup failed. -/
def audioSudoCheck (env : AudioEnv) : Except PyErr Unit :=
  if env.euid0 then
    match env.lastOut with
    | none => .error .attributeError
    | some _ =>
      match env.suUserIdOut with
      | none => .error .typeError
      | some _ => .ok ()
  else .ok ()

/-- The `pw-cli info 0` daemon test of the PipeWire-only branch
(lines 547-549): false when the command failed or printed nothing. -/
def pipewActiveOf (pwcliOut : Option String) : Bool :=
  match pwcliOut with
  | some s => if s ≠ "" then pyContains s "core.daemon = \"true\"" else false
  | none => false

/-- The pactl tier of `get_audio_info` (lines 514-543): raises on a failed
`pactl info` call when pulseaudio is installed, else yields the scanned
`(servers, pulseaudio_active, found_pipewire)` triple. -/
def pulseScanStep (pulseInstalled : Bool) (pactlOut : Option String) :
    Except PyErr (List ServerRec × Bool × Bool) :=
  if pulseInstalled then
    match pactlOut with
    | none => .error .attributeError
    | some out => .ok (pulseScan (pySplit out "\n"))
  else .ok ([], false, false)

/-- The server-list assembly of `get_audio_info` (lines 505-556): the pactl
tier (its exception propagating), then the PipeWire-only branch, whose
entry is active only when the daemon answered and PulseAudio was not
already determined active. -/
def audioServers (pulseInstalled pipewireInstalled : Bool)
    (pactlOut pwcliOut : Option String) : Except PyErr (List ServerRec) :=
  match pulseScanStep pulseInstalled pactlOut with
  | .error e => .error e
  | .ok (servers, pulseaudio_active, found_pipewire) =>
    .ok (if !found_pipewire && pipewireInstalled then
        servers ++ [⟨"PipeWire", pipewActiveOf pwcliOut && !pulseaudio_active⟩]
      else servers)

/-- `get_audio_info` (lines 490-556): the sudo-prefix assembly (which can
raise under root), then the server-list assembly. -/
def get_audio_info (env : AudioEnv) : Except PyErr AudioInfo := do
  let _ ← audioSudoCheck env
  let servers ← audioServers env.pulseInstalled env.pipewireInstalled env.pactlOut env.pwcliOut
  return ⟨servers⟩

/-- The number of entries reported active. -/
def countActive (l : List ServerRec) : Nat := (l.filter (fun r => r.active)).length

/-! ## Disk domain: block-device tree walker (`get_disks_metrics.traverse`,
mdd.py lines 559-613) -/

/-- A parsed `lsblk -Jbo NAME,TYPE,SIZE,FSTYPE,MOUNTPOINTS` node: device
type, filesystem type (JSON `null` as `none`), size in bytes, the
mountpoint list (unmounted nodes carry `[null]`), and child nodes. -/
inductive BlockNode where
  | mk (btype : Option String) (fstype : Option String) (size : Nat)
       (mountpoints : List (Option String)) (children : List BlockNode)

/-- The JSON `type` field. -/
def BlockNode.btype : BlockNode → Option String
  | .mk t _ _ _ _ => t

/-- The JSON `fstype` field. -/
def BlockNode.fstype : BlockNode → Option String
  | .mk _ f _ _ _ => f

/-- The JSON `size` field (bytes). -/
def BlockNode.size : BlockNode → Nat
  | .mk _ _ s _ _ => s

/-- The JSON `mountpoints` field. -/
def BlockNode.mountpoints : BlockNode → List (Option String)
  | .mk _ _ _ m _ => m

/-- The JSON `children` field (`[]` both for a missing key and an empty
list — iterating nothing either way). -/
def BlockNode.children : BlockNode → List BlockNode
  | .mk _ _ _ _ c => c

/-- The dict built by `get_mount_data()`: effective size (the running
minimum, in GiB — `ℚ` standing in for the IEEE double of `/ 1024 ** 3`),
the node's filesystem type, the accumulated encryption flag, and the
`subvol` key (present only when set). -/
structure MountData where
  size_gb : ℚ
  fstype : Option String
  crypt : Bool
  subvol : Option Bool
  deriving DecidableEq, Repr

/-- The `root` / `home` slots of the per-device results dict that
`traverse` mutates. -/
structure TravResults where
  root : Option MountData
  home : Option MountData
  deriving DecidableEq, Repr

/-- The mountpoint-recording step of `traverse` (lines 577-589): on a
truthy mountpoint list, record a `root` entry when `/` is present and a
`home` entry when `/home` is present, the latter marked `subvol` exactly
when the same list also holds `/`. -/
def nodeRecord (mountpoints : List (Option String)) (mount_data : MountData)
    (results : TravResults) : TravResults :=
  if !mountpoints.isEmpty then
    let has_root := mountpoints.contains (some "/")
    let results :=
      if mountpoints.contains (some "/") then
        { results with root := some mount_data }
      else results
    if mountpoints.contains (some "/home") then
      let data := if has_root then { mount_data with subvol := some true } else mount_data
      { results with home := some data }
    else results
  else results

mutual

/-- `traverse(block, results, min_size, is_crypt)` (lines 562-594): OR the
encryption flag with the node's own crypt evidence, lower the running
minimum size, record `root` / `home` entries for watched mountpoints (the
`home` entry is marked `subvol` only when the *same* node's mountpoint set
also contains `/`), then recurse into the children in order, threading the
results dict and passing the updated accumulators down. -/
def traverse (block : BlockNode) (results : TravResults) (min_size : Nat)
    (is_crypt : Bool) : TravResults :=
  match block with
  | .mk btype fstype size mountpoints children =>
    let is_crypt := is_crypt || btype == some "crypt" || fstype == some "crypto_LUKS"
    let min_size := min min_size size
    let mount_data : MountData := ⟨(min_size : ℚ) / 1024 ^ 3, fstype, is_crypt, none⟩
    traverseList children (nodeRecord mountpoints mount_data results) min_size is_crypt

/-- The `for child in block["children"]` loop of `traverse`. -/
def traverseList (children : List BlockNode) (results : TravResults)
    (min_size : Nat) (is_crypt : Bool) : TravResults :=
  match children with
  | [] => results
  | c :: cs => traverseList cs (traverse c results min_size is_crypt) min_size is_crypt

end

/-- The crypt evidence a single node contributes (`type == "crypt"` or
`fstype == "crypto_LUKS"`). -/
def isCryptNode (b : BlockNode) : Bool :=
  b.btype == some "crypt" || b.fstype == some "crypto_LUKS"

/-- A root-to-node path in the block-device tree: `IsPath b p n` says `p`
lists the nodes from `b` down to `n`, inclusive, each a child of its
predecessor. -/
inductive IsPath : BlockNode → List BlockNode → BlockNode → Prop where
  | here (b : BlockNode) : IsPath b [b] b
  | step {b c n : BlockNode} {p : List BlockNode} :
      c ∈ b.children → IsPath c p n → IsPath b (b :: p) n

/-- The running minimum `traverse` threads along a path, seeded with `ms`. -/
def pathMinSize (ms : Nat) (p : List BlockNode) : Nat :=
  p.foldl (fun a x => min a x.size) ms

/-- The running crypt flag `traverse` threads along a path, seeded with
`ic` (grouping exactly as the source's `is_crypt or ... or ...`). -/
def pathCrypt (ic : Bool) (p : List BlockNode) : Bool :=
  p.foldl (fun a x => a || x.btype == some "crypt" || x.fstype == some "crypto_LUKS") ic

mutual

/-- How many nodes of the subtree carry mountpoint `m`. -/
def countMp (m : String) (b : BlockNode) : Nat :=
  match b with
  | .mk _ _ _ mountpoints children =>
    (if mountpoints.contains (some m) then 1 else 0) + countMpList m children

/-- `countMp` summed over a forest. -/
def countMpList (m : String) : List BlockNode → Nat
  | [] => 0
  | c :: cs => countMp m c + countMpList m cs

end

/-- The results-dict slot a watched mountpoint is recorded in. -/
def recordedSlot (m : String) (r : TravResults) : Option MountData :=
  if m = "/" then r.root else r.home

/-- One element of the list returned by `get_disks_metrics`. -/
structure DeviceResult where
  size_gb : ℚ
  root : Option MountData
  home : Option MountData
  deriving DecidableEq, Repr

/-- `get_disks_metrics` (lines 596-613) as a function of the lsblk probe
outcome: outer `none` = the command failed, so `json.loads(None)` raises
`TypeError`; `some none` = unparseable stdout (`JSONDecodeError`); parsed
devices are walked from their own size with a cleared crypt flag, kept when
a watched mountpoint was found. -/
def get_disks_metrics (lsblkOut : Option (Option (List BlockNode))) :
    Except PyErr (List DeviceResult) :=
  match lsblkOut with
  | none => .error .typeError
  | some none => .error .jsonDecodeError
  | some (some devices) =>
    .ok (devices.filterMap (fun device =>
      let res := traverse device ⟨none, none⟩ device.size false
      if res.root.isSome || res.home.isSome then
        some ⟨(device.size : ℚ) / 1024 ^ 3, res.root, res.home⟩
      else none))

/-! ## Dual-boot detector (`check_windows_dualboot`, mdd.py lines 106-216) -/

/-- A node of the `lsblk -b -J -o NAME,SIZE,FSTYPE,MOUNTPOINT` tree used by
the partition heuristic. -/
inductive DBlockNode where
  | mk (name : String) (fstype : Option String) (size : Nat)
       (children : List DBlockNode)

/-- The JSON `fstype` field. -/
def DBlockNode.fstype : DBlockNode → Option String
  | .mk _ f _ _ => f

/-- The JSON `size` field (bytes). -/
def DBlockNode.size : DBlockNode → Nat
  | .mk _ _ s _ => s

/-- The JSON `children` field. -/
def DBlockNode.children : DBlockNode → List DBlockNode
  | .mk _ _ _ c => c

/-- Python `str(x)` of an optional string: `None` prints as `"None"`
(`str(device.get("fstype", ""))` meets a JSON `null` as `None`). -/
def pyStrOfOpt : Option String → String
  | none => "None"
  | some s => s

mutual

/-- `dualboot_lsblk_check.process_device`: an NTFS filesystem of at least
the threshold size on the node or any descendant. -/
def process_device (minBytes : Nat) (b : DBlockNode) : Bool :=
  match b with
  | .mk _ fstype size children =>
    (pyLower (pyStrOfOpt fstype) == "ntfs" && decide (minBytes ≤ size)) ||
      processChildren minBytes children

/-- The `for child in device.get("children", [])` loop. -/
def processChildren (minBytes : Nat) : List DBlockNode → Bool
  | [] => false
  | c :: cs => process_device minBytes c || processChildren minBytes cs

end

/-- Environment of the dual-boot detector: tool presence and the observable
outcome of each subprocess (`none` = `TimeoutExpired` for the 30 s-capped
os-prober runs; the lsblk run has no timeout, only an exit code and a
parse outcome). -/
structure DualbootEnv where
  osProberWhich : Bool
  directRun : Option (Int × String × String)
  sudoRun : Option (Int × String × String)
  lsblkRc : Int
  lsblkParse : Option (List DBlockNode)

/-- The permission-failure phrases scanned in os-prober's stderr. -/
def errorIndicators : List String :=
  ["you must be root", "Operation not permitted", "Permission denied"]

/-- `dualboot_os_prober_check` (lines 106-157): raises when the tool is
missing; retries through `sudo -n` on a non-zero exit or a recognised
permission phrase; raises on timeout or a still-non-zero exit; otherwise
scans stdout lines for a Windows boot-manager signature. -/
def dualboot_os_prober_check (env : DualbootEnv) : Except PyErr Bool := do
  if !env.osProberWhich then
    throw (.exception "os-prober is not installed")
  match env.directRun with
  | none => throw (.oserror "os-prober timed out")
  | some (rc, out, errS) =>
    let needSudo := rc ≠ 0 || errorIndicators.any (fun ind => pyContains errS ind)
    let result ←
      if needSudo then
        match env.sudoRun with
        | none => throw (PyErr.oserror "os-prober timed out")
        | some r => pure r
      else pure (rc, out, errS)
    if result.1 ≠ 0 then
      throw (.oserror "os-prober failed: can not elevate os-prober call")
    if pyStrip result.2.1 ≠ "" then
      if (pySplitLines result.2.1).any
          (fun line => pyContains (pyLower line) "windows boot manager") then
        return true
    return false

/-- `dualboot_lsblk_check` (lines 160-200): raises on a non-zero lsblk exit
or unparseable JSON; otherwise reports whether any device subtree holds an
NTFS partition of at least 20 GiB. -/
def dualboot_lsblk_check (env : DualbootEnv) : Except PyErr Bool := do
  if env.lsblkRc ≠ 0 then
    throw (.oserror "Error running lsblk")
  match env.lsblkParse with
  | none => throw .jsonDecodeError
  | some devices => return processChildren (20 * 1024 * 1024 * 1024) devices

/-- `check_windows_dualboot` (lines 203-216): try os-prober, fall back to
the partition heuristic, and on a second failure return `False` (the bad
`logging.error` varargs call is swallowed by the logging module).  Total:
no exception escapes. -/
def check_windows_dualboot (env : DualbootEnv) : Bool :=
  match dualboot_os_prober_check env with
  | .ok b => b
  | .error _ =>
    match dualboot_lsblk_check env with
    | .ok b => b
    | .error _ => false

/-- The spec's §3 provenance tags for a dual-boot verdict. -/
inductive DualBootProvenance where
  | detectedElevatedProbe
  | detectedDirectProbe
  | detectedByPartitionHeuristic
  | undeterminedDefaultFalse
  deriving DecidableEq, Repr

/-- Did the first tier route through the elevation wrapper? -/
def osProberUsedSudo (env : DualbootEnv) : Bool :=
  match env.directRun with
  | some (rc, _, errS) => rc ≠ 0 || errorIndicators.any (fun ind => pyContains errS ind)
  | none => false

/-- Modelled from the spec: the code returns a bare boolean with no
provenance field, so the spec's §3 "Dual-Boot Verdict" provenance tag is
realised here as a classification of `check_windows_dualboot`'s branch
structure — first tier answered (direct or elevated), fallback tier
answered, or both tiers failed (the default-false branch). -/
def dualbootVerdict (env : DualbootEnv) : Bool × DualBootProvenance :=
  match dualboot_os_prober_check env with
  | .ok b => (b, if osProberUsedSudo env then .detectedElevatedProbe else .detectedDirectProbe)
  | .error _ =>
    match dualboot_lsblk_check env with
    | .ok b => (b, .detectedByPartitionHeuristic)
    | .error _ => (false, .undeterminedDefaultFalse)

/-- The dict returned by `get_disk_info`. -/
structure DiskInfo where
  disks : List DeviceResult
  windows : Bool
  deriving DecidableEq, Repr

/-- Environment of the disk domain. -/
structure DiskEnv where
  lsblkMetrics : Option (Option (List BlockNode))
  dualboot : DualbootEnv

/-- `get_disk_info` (lines 616-621): metrics first (its `TypeError` /
`JSONDecodeError` propagates), then the best-effort dual-boot verdict. -/
def get_disk_info (env : DiskEnv) : Except PyErr DiskInfo := do
  let d ← get_disks_metrics env.lsblkMetrics
  return ⟨d, check_windows_dualboot env.dualboot⟩

/-! ## Report assembler (`get_device_data`, mdd.py lines 750-781) -/

/-- An abstract section payload: a flat field-to-value mapping (the shape of
the system/boot/cpu/memory/locale/package/desktop sections, whose internals
no claim inspects). -/
abbrev SectionVal := List (String × IVal)

/-- The `meta` section: always version, timestamp, device identity and
distro id; release and the inxi capability flag only under telemetry
(`none` = key absent). -/
structure MetaSection where
  version : Nat
  timestamp : String
  device_id : String
  distro_id : String
  release : Option String
  inxiFlag : Option Bool
  deriving DecidableEq, Repr

/-- The assembled document.  The key set is fixed; `none` = the top-level
key is absent. -/
structure Document where
  meta : MetaSection
  system : Option SectionVal
  boot : Option SectionVal
  cpu : Option SectionVal
  memory : Option SectionVal
  graphics : Option GraphicsInfo
  audio : Option AudioInfo
  disk : Option DiskInfo
  locale : Option SectionVal
  package : Option SectionVal
  desktop : Option SectionVal
  deriving DecidableEq, Repr

/-- The whole run environment: identity inputs and the clock, the cached
inxi document, and each domain's probe environment.  Sections whose
internals no claim inspects are abstracted to their observable outcome
(`Except` = the section's gatherer returned a dict or raised). -/
structure DeviceEnv where
  machineIdFile : String
  now : String
  distroId : String
  distroVersion : String
  inxi : Option InxiDoc
  systemResult : Except PyErr SectionVal
  bootResult : Except PyErr SectionVal
  cpuResult : Except PyErr SectionVal
  memoryResult : Except PyErr SectionVal
  graphics : GraphicsEnv
  audio : AudioEnv
  disk : DiskEnv
  localeResult : Except PyErr SectionVal
  packageResult : Except PyErr SectionVal
  desktopResult : Except PyErr SectionVal

/-- The minimal ping document: only `meta`, with version, timestamp,
device identity and distro id. -/
def pingDoc (env : DeviceEnv) : Document :=
  ⟨⟨1, env.now, get_hashed_device_id env.machineIdFile, env.distroId, none, none⟩,
   none, none, none, none, none, none, none, none, none, none⟩

/-- `get_device_data(telemetry)` (lines 750-781): build `meta`, return it
alone when telemetry is disabled; otherwise extend `meta` and gather the ten
hardware sections in the fixed order of the dict literal.  There is no
per-section exception handling: a raising section gatherer propagates
through the `Except` bind and aborts the assembly. -/
def get_device_data (env : DeviceEnv) (telemetry : Bool) : Except PyErr Document :=
  if !telemetry then .ok (pingDoc env)
  else do
    let meta : MetaSection :=
      { (pingDoc env).meta with
        release := some env.distroVersion
        inxiFlag := some env.inxi.isSome }
    let system ← env.systemResult
    let boot ← env.bootResult
    let cpu ← env.cpuResult
    let memory ← env.memoryResult
    let graphics ← get_graphics_info env.inxi env.graphics
    let audio ← get_audio_info env.audio
    let disk ← get_disk_info env.disk
    let locale ← env.localeResult
    let package ← env.packageResult
    let desktop ← env.desktopResult
    return ⟨meta, some system, some boot, some cpu, some memory, some graphics,
      some audio, some disk, some locale, some package, some desktop⟩

/-- The default record used to read list elements positionally. -/
def outputDefault : OutputRec := ⟨.vnone, .vnone, .vnone, .vnone, .vnone, .vnone⟩

/-- The claim's per-record no-regress relation: every reconciliation-managed
field (`res`, `refresh`, `size`) that the primary probe filled (not `None`,
`""` or `"N/A"`) keeps exactly its primary value. -/
def PreservesPresent (o o' : OutputRec) : Prop :=
  (o.res.isEmptyMark = false → o'.res = o.res) ∧
  (o.refresh.isEmptyMark = false → o'.refresh = o.refresh) ∧
  (o.size.isEmptyMark = false → o'.size = o.size)

/-! ## Concrete environments for counterexamples and witnesses -/

/-- A primary-probe output record with `res` and `refresh` present and
`size` empty, mapped to output name `DP-1`. -/
def outputRecDP1 : OutputRec :=
  ⟨.vstr "M", .vstr "1024x768", .vstr "60", .vnone, .vstr "", .vstr "DP-1"⟩

/-- An audio environment with nothing installed: `get_audio_info` returns an
empty server list. -/
def audioEnvQuiet : AudioEnv := ⟨false, none, none, false, false, none, none⟩

/-- A dual-boot environment in which both tiers fail: os-prober is not
installed and lsblk exits non-zero. -/
def dualbootEnvBothFail : DualbootEnv := ⟨false, none, none, 1, none⟩

/-- A disk environment whose lsblk metrics parse to an empty device list. -/
def diskEnvEmpty : DiskEnv := ⟨some (some []), dualbootEnvBothFail⟩

/-- A graphics environment whose xrandr output opens with an active mode
line before any connected-output line — the input on which
`get_graphics_info` raises (line 441). -/
def gfxEnvRaise : GraphicsEnv := ⟨none, false, none, none, true, some "   1920x1080 60.00*"⟩

/-- A graphics environment with every tool absent: the section degrades to
fallback values without raising. -/
def gfxEnvQuiet : GraphicsEnv := ⟨none, false, none, none, false, none⟩

/-- A run environment in which every section succeeds. -/
def deviceEnvOk : DeviceEnv :=
  { machineIdFile := "2f0c9817b5a64a2d9c12f241c8a0b7e3\n"
    now := "2024-06-01T12:00:00+00:00"
    distroId := "manjaro"
    distroVersion := "24.0.0"
    inxi := none
    systemResult := .ok [("kernel", .vstr "6.9.0")]
    bootResult := .ok [("uefi", .vstr "True")]
    cpuResult := .ok [("arch", .vstr "x86_64")]
    memoryResult := .ok []
    graphics := gfxEnvQuiet
    audio := audioEnvQuiet
    disk := diskEnvEmpty
    localeResult := .ok []
    packageResult := .ok []
    desktopResult := .ok [] }

/-- The same run environment except that the graphics section's xrandr
probe returns the unmapped-mode output. -/
def deviceEnvGfxRaise : DeviceEnv := { deviceEnvOk with graphics := gfxEnvRaise }

/-- A second ping environment: agrees with `deviceEnvOk` on the machine-id
content, the distro identifier and the clock, and differs in every probe
field. -/
def deviceEnvOtherProbes : DeviceEnv :=
  { machineIdFile := "2f0c9817b5a64a2d9c12f241c8a0b7e3\n"
    now := "2024-06-01T12:00:00+00:00"
    distroId := "manjaro"
    distroVersion := "99.9.9"
    inxi := some [[("000#System", [[("001#Desktop", .vstr "KDE")]])]]
    systemResult := .error .typeError
    bootResult := .error (.exception "boom")
    cpuResult := .error .valueError
    memoryResult := .error .keyError
    graphics := gfxEnvRaise
    audio := ⟨true, none, none, true, true, none, some "core.daemon = \"true\""⟩
    disk := ⟨none, ⟨true, some (0, "Windows Boot Manager", ""), none, 0, some []⟩⟩
    localeResult := .error .typeError
    packageResult := .error .typeError
    desktopResult := .error .typeError }

/-- A tree in which `/` sits on one node and `/home` on a *child* node: the
cross-node case the subvolume marking does not cover. -/
def treeCrossNode : BlockNode :=
  .mk (some "disk") none 500 [] [
    .mk (some "part") (some "ext4") 480 [some "/"] [
      .mk (some "part") (some "ext4") 400 [some "/home"] []]]

/-- A btrfs-style leaf carrying both `/` and `/home` in one mountpoint
set. -/
def treeSameNodeLeaf : BlockNode :=
  .mk (some "part") (some "btrfs") 460 [some "/", some "/home"] []

/-- An encrypted container holding the btrfs leaf. -/
def treeSameNodeCrypt : BlockNode :=
  .mk (some "crypt") (some "crypto_LUKS") 480 [] [treeSameNodeLeaf]

/-- A disk holding the encrypted container: `/` and `/home` share one node
under a LUKS layer smaller than the disk. -/
def treeSameNode : BlockNode :=
  .mk (some "disk") none 500 [] [treeSameNodeCrypt]

/-! ## Theorems -/

/-! ### Facts about the digest shape, and the pigeonhole collision -/

theorem sha256Bytes_length (msg : List Nat) : (sha256Bytes msg).length = 32 := by
  simp [sha256Bytes, stateBytes, wordBytes]

theorem sha256Bytes_lt (msg : List Nat) : ∀ b ∈ sha256Bytes msg, b < 256 := by
  intro b hb
  simp only [sha256Bytes, stateBytes, wordBytes, List.mem_append, List.mem_cons,
    List.not_mem_nil, or_false] at hb
  omega

theorem truncDigest_length (s : String) : (truncDigest s).length = 16 := by
  simp [truncDigest, sha256Bytes_length]

theorem truncDigest_lt (s : String) : ∀ b ∈ truncDigest s, b < 256 := by
  intro b hb
  exact sha256Bytes_lt _ b (List.take_subset _ _ hb)

theorem get_hashed_device_id_eq_of_truncDigest_eq {s₁ s₂ : String}
    (h : truncDigest s₁ = truncDigest s₂) :
    get_hashed_device_id s₁ = get_hashed_device_id s₂ := by
  unfold get_hashed_device_id
  show uuidStrOfBytes (truncDigest s₁) = uuidStrOfBytes (truncDigest s₂)
  rw [h]

theorem aSecret_injective : Function.Injective aSecret := by
  intro n m h
  have h2 : (aSecret n).data = (aSecret m).data := by rw [h]
  simpa [aSecret] using congrArg List.length h2

theorem truncDigest_eq_of_pigeonMap_eq {n m : Nat}
    (h : pigeonMap n = pigeonMap m) :
    truncDigest (aSecret n) = truncDigest (aSecret m) := by
  have h₁ := truncDigest_length (aSecret n)
  have h₂ := truncDigest_length (aSecret m)
  apply List.ext_getElem (by omega)
  intro i hi₁ hi₂
  have hfin : i < 16 := by omega
  have hb₁ : (truncDigest (aSecret n)).getD i 0 < 256 := by
    rw [List.getD_eq_getElem _ _ (show i < (truncDigest (aSecret n)).length by omega)]
    exact truncDigest_lt _ _ (List.getElem_mem _)
  have hb₂ : (truncDigest (aSecret m)).getD i 0 < 256 := by
    rw [List.getD_eq_getElem _ _ (show i < (truncDigest (aSecret m)).length by omega)]
    exact truncDigest_lt _ _ (List.getElem_mem _)
  have hval : (truncDigest (aSecret n)).getD i 0 % 256 =
      (truncDigest (aSecret m)).getD i 0 % 256 :=
    congrArg Fin.val (congrFun h ⟨i, hfin⟩)
  rw [Nat.mod_eq_of_lt hb₁, Nat.mod_eq_of_lt hb₂] at hval
  rwa [List.getD_eq_getElem _ _ (show i < (truncDigest (aSecret n)).length by omega),
    List.getD_eq_getElem _ _ (show i < (truncDigest (aSecret m)).length by omega)] at hval

/-- C1 (counterexample): the claim's universal half — "for any two distinct
fixed secrets the two invocations return unequal identifiers" — is false for
`get_hashed_device_id`: the identifier is determined by the first 16 bytes of
a SHA-256 digest, so by the pigeonhole principle over the finite space
`Fin 16 → Fin 256` some two distinct machine-id contents collide.  (No
concrete colliding pair is computable, hence the negation is established
nonconstructively; this is exactly the sense in which the spec's own wording
"collision probability negligible" — rather than zero — is the correct one.) -/
theorem C1_collision_free_refuted :
    ¬ ((∀ c₁ c₂ : String, c₁ = c₂ → get_hashed_device_id c₁ = get_hashed_device_id c₂) ∧
       (∀ c₁ c₂ : String, c₁ ≠ c₂ → get_hashed_device_id c₁ ≠ get_hashed_device_id c₂)) := by
  rintro ⟨-, hinj⟩
  obtain ⟨n, m, hnm, heq⟩ := Finite.exists_ne_map_eq_of_infinite pigeonMap
  exact hinj (aSecret n) (aSecret m) (fun h => hnm (aSecret_injective h))
    (get_hashed_device_id_eq_of_truncDigest_eq (truncDigest_eq_of_pigeonMap_eq heq))

/-- C1 (amended): `get_hashed_device_id` is deterministic — two invocations
reading the same `/etc/machine-id` content produce the identical identifier
string (in the embedding the pipeline is a pure function of the file
content) — and, per the spec's testable form of host-distinguishing,
two concrete distinct machine-id secrets are checked to produce unequal
identifiers; the universal inequality is weakened to negligible-probability
collision, which is all a 128-bit truncated hash can offer. -/
theorem C1_device_id_deterministic_and_test_secrets_distinct :
    (∀ c₁ c₂ : String, c₁ = c₂ → get_hashed_device_id c₁ = get_hashed_device_id c₂) ∧
    get_hashed_device_id "2f0c9817b5a64a2d9c12f241c8a0b7e3\n" ≠
      get_hashed_device_id "77d10d19c2c64c4da4b33cf65a37a1f6\n" ∧
    get_hashed_device_id "2f0c9817b5a64a2d9c12f241c8a0b7e3\n" =
      "911dff07-b6a6-5674-8457-908a28f491fd" :=
  ⟨fun _ _ h => h ▸ rfl, by decide, by decide⟩

/-- C1 (witness): the determinism half applied at a concrete machine-id
content. -/
theorem C1_device_id_witness :
    get_hashed_device_id "2f0c9817b5a64a2d9c12f241c8a0b7e3\n" =
      get_hashed_device_id "2f0c9817b5a64a2d9c12f241c8a0b7e3\n" :=
  C1_device_id_deterministic_and_test_secrets_distinct.1 _ _ rfl

/-! ## C6: reads against the empty structured-probe cache -/

theorem inxiFindKey_eq_none {code : String} {entry : List (String × List Item)}
    (h : ∀ kv ∈ entry, ¬ (pyEndsWith kv.1 code = true)) :
    inxiFindKey code entry = none := by
  induction entry with
  | nil => rfl
  | cons kv rest ih =>
    have hkv := h kv (List.mem_cons_self _ _)
    obtain ⟨k, v⟩ := kv
    simp only [inxiFindKey]
    rw [if_neg (by simpa using hkv)]
    exact ih fun x hx => h x (List.mem_cons_of_mem _ hx)

theorem inxiFindCat_eq_none {code : String} {doc : InxiDoc}
    (h : ∀ entry ∈ doc, ∀ kv ∈ entry, ¬ (pyEndsWith kv.1 code = true)) :
    inxiFindCat code doc = none := by
  induction doc with
  | nil => rfl
  | cons entry rest ih =>
    simp only [inxiFindCat]
    rw [inxiFindKey_eq_none (h entry (List.mem_cons_self _ _))]
    exact ih fun e he => h e (List.mem_cons_of_mem _ he)

/-- C6 (counterexample): with the cache empty because inxi was unavailable
(the global is `None`), the read `get_inxi_main_cat("#CPU")` does not return
the absence marker — iterating over `None` raises `TypeError`.  (In the real
script every call site avoids this by guarding with `if inxi:`.) -/
theorem C6_empty_cache_read_raises :
    get_inxi_main_cat none "#CPU" = .error .typeError := rfl

/-- C6 (amended): reads against a *parsed* cache are total: for every parsed
document and category code, `get_inxi_main_cat` returns without raising, and
it returns the absence marker `None` whenever no key of any item ends with
the code.  When the cache is empty because inxi was unavailable (the global
still `None`), a direct read raises `TypeError` instead — the script's call
sites therefore guard each read with `if inxi:`. -/
theorem C6_parsed_cache_reads_total (doc : InxiDoc) (code : String) :
    (∃ v, get_inxi_main_cat (some doc) code = .ok v) ∧
    ((∀ entry ∈ doc, ∀ kv ∈ entry, ¬ (pyEndsWith kv.1 code = true)) →
      get_inxi_main_cat (some doc) code = .ok none) :=
  ⟨⟨inxiFindCat code doc, rfl⟩, fun h => by
    simp only [get_inxi_main_cat]
    rw [inxiFindCat_eq_none h]⟩

/-- C6 (witness): the amended read-totality at a concrete one-category
document holding no CPU category. -/
theorem C6_parsed_cache_witness :
    get_inxi_main_cat (some [[("004#Graphics", [])]]) "#CPU" = .ok none :=
  (C6_parsed_cache_reads_total [[("004#Graphics", [])]] "#CPU").2 (by decide)

/-! ## C7: minimal ping shape -/

/-- C7: with telemetry disabled, `get_device_data` yields exactly the ping
document: `meta` carries version 1, the run timestamp and the derived device
identity (plus the distro id, which the claim does not exclude), the
telemetry-only meta keys are absent, and every one of the ten
hardware-section keys is absent. -/
theorem C7_minimal_ping_shape (env : DeviceEnv) :
    get_device_data env false = .ok (pingDoc env) ∧
    (pingDoc env).meta.version = 1 ∧
    (pingDoc env).meta.timestamp = env.now ∧
    (pingDoc env).meta.device_id = get_hashed_device_id env.machineIdFile ∧
    (pingDoc env).meta.release = none ∧
    (pingDoc env).meta.inxiFlag = none ∧
    (pingDoc env).system = none ∧
    (pingDoc env).boot = none ∧
    (pingDoc env).cpu = none ∧
    (pingDoc env).memory = none ∧
    (pingDoc env).graphics = none ∧
    (pingDoc env).audio = none ∧
    (pingDoc env).disk = none ∧
    (pingDoc env).locale = none ∧
    (pingDoc env).package = none ∧
    (pingDoc env).desktop = none :=
  ⟨rfl, rfl, rfl, rfl, rfl, rfl, rfl, rfl, rfl, rfl, rfl, rfl, rfl, rfl, rfl, rfl⟩

/-! ## C10: the telemetry-disabled path consults no probes -/

/-- C10: with telemetry disabled, `get_device_data` returns before any
section gatherer or probe adapter runs, so two environments that agree on
the machine-id content, the distro identifier and the clock — and differ
arbitrarily in every probe's behaviour — produce identical ping documents.
-/
theorem C10_ping_probe_independent (env₁ env₂ : DeviceEnv)
    (hmid : env₁.machineIdFile = env₂.machineIdFile)
    (hdistro : env₁.distroId = env₂.distroId)
    (hnow : env₁.now = env₂.now) :
    get_device_data env₁ false = get_device_data env₂ false := by
  show Except.ok (pingDoc env₁) = Except.ok (pingDoc env₂)
  rw [pingDoc, pingDoc, hmid, hdistro, hnow]

/-- C10 (witness): two concrete environments that agree on identity inputs
and the clock but disagree in every probe field (inxi cache, every section
outcome, every command output) produce the same ping document. -/
theorem C10_ping_witness :
    get_device_data deviceEnvOk false = get_device_data deviceEnvOtherProbes false :=
  C10_ping_probe_independent deviceEnvOk deviceEnvOtherProbes rfl rfl rfl

/-! ## C5: dual-boot detection degrades gracefully -/

/-- C5: whenever the os-prober tier raises (tool absent, failed elevation,
timeout, non-zero exit) and the lsblk fallback tier also raises,
`check_windows_dualboot` returns `False` — its Lean type is a plain `Bool`,
so no exception propagates — and the spec-level provenance view classifies
the verdict as `undetermined-default-false`. -/
theorem C5_dualboot_default_false (env : DualbootEnv)
    (h₁ : ∃ e₁, dualboot_os_prober_check env = .error e₁)
    (h₂ : ∃ e₂, dualboot_lsblk_check env = .error e₂) :
    check_windows_dualboot env = false ∧
    dualbootVerdict env = (false, .undeterminedDefaultFalse) := by
  obtain ⟨e₁, h₁⟩ := h₁
  obtain ⟨e₂, h₂⟩ := h₂
  refine ⟨?_, ?_⟩
  · rw [check_windows_dualboot, h₁, h₂]
  · rw [dualbootVerdict, h₁, h₂]

/-- C5 (witness): with os-prober not installed and lsblk exiting non-zero,
the verdict is the default false with undetermined provenance. -/
theorem C5_dualboot_witness :
    check_windows_dualboot dualbootEnvBothFail = false ∧
    dualbootVerdict dualbootEnvBothFail = (false, .undeterminedDefaultFalse) :=
  C5_dualboot_default_false dualbootEnvBothFail ⟨_, rfl⟩ ⟨_, rfl⟩

/-! ## C2: section failures and report assembly -/

/-- C2 (counterexample): report sections are *not* failure-isolated.  On a
concrete run with telemetry enabled, every other section healthy, and the
graphics section's xrandr probe returning an active-mode line before any
connected-output line, `get_graphics_info` raises (mdd.py line 441) and the
exception propagates through `get_device_data` — no document is assembled at
all, so the failure does not degrade only the graphics fields. -/
theorem C2_section_failure_aborts_assembly :
    get_graphics_info none gfxEnvRaise =
      .error (.exception "matched a mode without being mapped") ∧
    get_device_data deviceEnvGfxRaise true =
      .error (.exception "matched a mode without being mapped") := by
  constructor <;> rfl

/-- C2 (amended): `get_device_data` has no per-section exception handling.
A failure that a section handles internally (a failed command replaced by
its `get_command_output` default) degrades only that section, and any
combination of sections that return normally is assembled intact, each
top-level key holding exactly its own gatherer's value; but a section
gatherer that raises — such as `get_graphics_info` on an active mode line
with no preceding connected output — propagates its exception through
`get_device_data` and aborts the whole report. -/
theorem C2_assembly_behaviour (env : DeviceEnv) (s₁ s₂ s₃ s₄ : SectionVal)
    (h₁ : env.systemResult = .ok s₁) (h₂ : env.bootResult = .ok s₂)
    (h₃ : env.cpuResult = .ok s₃) (h₄ : env.memoryResult = .ok s₄) :
    (∀ e, get_graphics_info env.inxi env.graphics = .error e →
      get_device_data env true = .error e) ∧
    (∀ g a d s₅ s₆ s₇,
      get_graphics_info env.inxi env.graphics = .ok g →
      get_audio_info env.audio = .ok a →
      get_disk_info env.disk = .ok d →
      env.localeResult = .ok s₅ →
      env.packageResult = .ok s₆ →
      env.desktopResult = .ok s₇ →
      get_device_data env true = .ok
        ⟨{ (pingDoc env).meta with
            release := some env.distroVersion
            inxiFlag := some env.inxi.isSome },
          some s₁, some s₂, some s₃, some s₄, some g, some a, some d,
          some s₅, some s₆, some s₇⟩) := by
  constructor
  · intro e he
    simp only [get_device_data, h₁, h₂, h₃, h₄, he]
    rfl
  · intro g a d s₅ s₆ s₇ hg ha hd h₅ h₆ h₇
    simp only [get_device_data, h₁, h₂, h₃, h₄, hg, ha, hd, h₅, h₆, h₇]
    rfl

/-- C2 (witness): the amended behaviour at the concrete all-healthy
environment — the assembled document holds every section's own value. -/
theorem C2_assembly_witness :
    get_device_data deviceEnvOk true = .ok
      ⟨{ (pingDoc deviceEnvOk).meta with
          release := some deviceEnvOk.distroVersion
          inxiFlag := some deviceEnvOk.inxi.isSome },
        some [("kernel", .vstr "6.9.0")], some [("uefi", .vstr "True")],
        some [("arch", .vstr "x86_64")], some [],
        some ⟨.vstr "unknown", .vnone,
          [⟨.vstr "", .vnone, .vnone⟩], []⟩,
        some ⟨[]⟩, some ⟨[], false⟩, some [], some [], some []⟩ :=
  (C2_assembly_behaviour deviceEnvOk _ _ _ _ rfl rfl rfl rfl).2
    _ _ _ _ _ _ rfl rfl rfl rfl rfl rfl

/-! ## C9: at most one audio server is reported active -/

theorem pulseScan_spec (lines : List String) :
    countActive (pulseScan lines).1 =
      ((if (pulseScan lines).2.1 then 1 else 0) +
       (if (pulseScan lines).2.2 then 1 else 0)) ∧
    ((pulseScan lines).2.1 = true → (pulseScan lines).2.2 = false) := by
  induction lines with
  | nil => simp [pulseScan, countActive]
  | cons line rest ih =>
    by_cases h : pyStartsWith line "Server Name" = true
    · simp only [pulseScan, h, if_true]
      set name := pyLower ((pySplitMax2 line).getLastD "") with hname
      constructor
      · by_cases hpa : (name == "pulseaudio") = true
        · have hne : name = "pulseaudio" := eq_of_beq hpa
          have hfp : pyContains name "pipewire" = false := by rw [hne]; decide
          simp [hpa, hfp, countActive]
        · rw [Bool.not_eq_true] at hpa
          by_cases hfp : pyContains name "pipewire" = true
          · simp [hpa, hfp, countActive]
          · rw [Bool.not_eq_true] at hfp
            simp [hpa, hfp, countActive]
      · intro hpa
        have hne : name = "pulseaudio" := eq_of_beq hpa
        rw [hne]
        decide
    · rw [Bool.not_eq_true] at h
      simpa [pulseScan, h] using ih

/-- Inverting a successful `Except` bind. -/
theorem exceptBind_ok {α β : Type} {x : Except PyErr α} {f : α → Except PyErr β} {b : β}
    (h : (x >>= f) = .ok b) : ∃ a, x = .ok a ∧ f a = .ok b := by
  cases x with
  | ok a => exact ⟨a, rfl, h⟩
  | error e => exact Except.noConfusion (show Except.error (α := β) e = .ok b from h)

theorem pulseScanStep_spec (pulseInstalled : Bool) (pactlOut : Option String)
    (scanSrv : List ServerRec) (pa fp : Bool)
    (h : pulseScanStep pulseInstalled pactlOut = .ok (scanSrv, pa, fp)) :
    countActive scanSrv = ((if pa then 1 else 0) + (if fp then 1 else 0)) ∧
    (pa = true → fp = false) := by
  unfold pulseScanStep at h
  rcases pulseInstalled with _ | _
  · simp only [Bool.false_eq_true, if_false, Except.ok.injEq, Prod.mk.injEq] at h
    obtain ⟨hA, hB, hC⟩ := h
    subst hA; subst hB; subst hC
    exact ⟨by simp [countActive], by simp⟩
  · rcases pactlOut with _ | out
    · exact Except.noConfusion h
    · simp only [if_true, Except.ok.injEq] at h
      have := pulseScan_spec (pySplit out "\n")
      rw [h] at this
      exact this

theorem audioServers_at_most_one_active (pulseInstalled pipewireInstalled : Bool)
    (pactlOut pwcliOut : Option String) (srv : List ServerRec)
    (h : audioServers pulseInstalled pipewireInstalled pactlOut pwcliOut = .ok srv) :
    countActive srv ≤ 1 := by
  unfold audioServers at h
  rcases hstep : pulseScanStep pulseInstalled pactlOut with e | ⟨scanSrv, pa, fp⟩ <;>
    rw [hstep] at h
  · exact Except.noConfusion h
  · simp only [Except.ok.injEq] at h
    obtain ⟨hcount, himp⟩ := pulseScanStep_spec pulseInstalled pactlOut scanSrv pa fp hstep
    rw [← h]
    rcases pa with _ | _ <;> rcases fp with _ | _ <;>
      simp only [if_true, if_false, Bool.false_eq_true, Bool.true_eq_false,
        Nat.add_zero, Nat.zero_add] at hcount
    · have h0 : (List.filter (fun r => r.active) scanSrv).length = 0 := hcount
      rcases pipewireInstalled with _ | _
      · simp only [Bool.not_false, Bool.true_and, Bool.and_false, Bool.false_eq_true, if_false]
        simp only [countActive]
        omega
      · simp only [Bool.not_false, Bool.true_and, if_true]
        rcases hpw : pipewActiveOf pwcliOut with _ | _ <;>
          simp only [countActive, List.filter_append, List.length_append, List.filter,
            hpw, Bool.not_false, Bool.and_true, List.length_cons, List.length_nil] <;>
          omega
    · have h1 : (List.filter (fun r => r.active) scanSrv).length = 1 := hcount
      simp only [Bool.not_true, Bool.false_and, Bool.false_eq_true, if_false]
      simp only [countActive]
      omega
    · have h1 : (List.filter (fun r => r.active) scanSrv).length = 1 := hcount
      rcases pipewireInstalled with _ | _
      · simp only [Bool.not_false, Bool.true_and, Bool.and_false, Bool.false_eq_true, if_false]
        simp only [countActive]
        omega
      · simp only [Bool.not_false, Bool.true_and, if_true, Bool.not_true, Bool.and_false]
        simp only [countActive, List.filter_append, List.length_append, List.filter,
          List.length_cons, List.length_nil]
        omega
    · exact absurd (himp rfl) (by simp)

/-- C9: whenever `get_audio_info` returns a server list, at most one entry
is reported active: within the pactl branch an exactly-PulseAudio server
name and a PipeWire-containing server name are mutually exclusive, and the
PipeWire-only branch appends an entry active only when PipeWire's daemon
answered *and* PulseAudio was not already determined active. -/
theorem C9_at_most_one_active_server (env : AudioEnv) (info : AudioInfo)
    (h : get_audio_info env = .ok info) : countActive info.servers ≤ 1 := by
  unfold get_audio_info at h
  rcases hs : audioSudoCheck env with e | u <;> rw [hs] at h
  · exact absurd (show Except.error (α := AudioInfo) e = .ok info from h) (by simp)
  · rcases ha : audioServers env.pulseInstalled env.pipewireInstalled env.pactlOut env.pwcliOut
      with e | srv <;> rw [ha] at h
    · exact absurd (show Except.error (α := AudioInfo) e = .ok info from h) (by simp)
    · have h2 : Except.ok (ε := PyErr) (AudioInfo.mk srv) = .ok info := h
      have hinfo : AudioInfo.mk srv = info := by injection h2
      rw [← hinfo]
      exact audioServers_at_most_one_active _ _ _ _ _ ha

/-- C9 (witness): the invariant applied to the concrete quiet environment,
whose server list is empty. -/
theorem C9_witness : countActive (AudioInfo.mk []).servers ≤ 1 :=
  C9_at_most_one_active_server audioEnvQuiet ⟨[]⟩ rfl

/-! ## C3: xrandr reconciliation never regresses a primary value -/

theorem preservesPresent_refl (o : OutputRec) : PreservesPresent o o :=
  ⟨fun _ => rfl, fun _ => rfl, fun _ => rfl⟩

theorem preservesPresent_trans {a b c : OutputRec}
    (h₁ : PreservesPresent a b) (h₂ : PreservesPresent b c) : PreservesPresent a c := by
  obtain ⟨r₁, f₁, s₁⟩ := h₁
  obtain ⟨r₂, f₂, s₂⟩ := h₂
  refine ⟨fun h => ?_, fun h => ?_, fun h => ?_⟩
  · have hb := r₁ h
    have hc := r₂ (by rw [hb]; exact h)
    rw [hc, hb]
  · have hb := f₁ h
    have hc := f₂ (by rw [hb]; exact h)
    rw [hc, hb]
  · have hb := s₁ h
    have hc := s₂ (by rw [hb]; exact h)
    rw [hc, hb]

theorem fillIfEmpty_of_present {old : IVal} (new : IVal)
    (h : old.isEmptyMark = false) : fillIfEmpty old new = old := by
  rw [fillIfEmpty, h]
  rfl

theorem fillOutput_preserves (res refresh size : IVal) (o : OutputRec) :
    PreservesPresent o (fillOutput res refresh size o) :=
  ⟨fun h => fillIfEmpty_of_present res h,
   fun h => fillIfEmpty_of_present refresh h,
   fun h => fillIfEmpty_of_present size h⟩

theorem modifyAt_length (i : Nat) (f : OutputRec → OutputRec) (l : List OutputRec) :
    (modifyAt i f l).length = l.length := by
  induction l generalizing i with
  | nil => simp [modifyAt]
  | cons o rest ih =>
    cases i with
    | zero => rfl
    | succ i => simpa [modifyAt] using ih i

theorem modifyAt_getD (i j : Nat) (f : OutputRec → OutputRec) (l : List OutputRec)
    (d : OutputRec) (hj : j < l.length) :
    (modifyAt i f l).getD j d = if i = j then f (l.getD j d) else l.getD j d := by
  induction l generalizing i j with
  | nil => simp at hj
  | cons o rest ih =>
    cases i with
    | zero =>
      cases j with
      | zero => simp [modifyAt]
      | succ j => simp [modifyAt]
    | succ i =>
      cases j with
      | zero => simp [modifyAt]
      | succ j =>
        have hj' : j < rest.length := by simpa using hj
        simpa [modifyAt, Nat.succ_inj] using ih i j hj'

theorem xrandrStep_preserves (st st' : XrandrState) (line : String)
    (h : xrandrStep st line = .ok st') :
    st.outputs.length ≤ st'.outputs.length ∧
    ∀ i, i < st.outputs.length →
      PreservesPresent (st.outputs.getD i outputDefault) (st'.outputs.getD i outputDefault) := by
  unfold xrandrStep at h
  split at h
  · -- disconnected line
    injection h with h2
    subst h2
    exact ⟨Nat.le_refl _, fun i _ => preservesPresent_refl _⟩
  · split at h
    · -- connected line
      injection h with h2
      subst h2
      exact ⟨Nat.le_refl _, fun i _ => preservesPresent_refl _⟩
    · -- other lines: case on the mode match
      split at h
      · -- no active mode: state unchanged
        injection h with h2
        subst h2
        exact ⟨Nat.le_refl _, fun i _ => preservesPresent_refl _⟩
      · -- active mode: case on the tracked connected output
        split at h
        · -- no connected output: the branch raises
          exact Except.noConfusion h
        · split at h
          · -- matched primary record: in-place fill
            injection h with h2
            subst h2
            refine ⟨Nat.le_of_eq (modifyAt_length _ _ _).symm, fun i hi => ?_⟩
            show PreservesPresent (st.outputs.getD i outputDefault)
              ((modifyAt _ _ st.outputs).getD i outputDefault)
            rw [modifyAt_getD _ i _ _ _ hi]
            split
            · exact fillOutput_preserves _ _ _ _
            · exact preservesPresent_refl _
          · -- unmatched: append a new record
            injection h with h2
            subst h2
            refine ⟨by simp, fun i hi => ?_⟩
            show PreservesPresent (st.outputs.getD i outputDefault)
              ((st.outputs ++ _).getD i outputDefault)
            rw [List.getD_append _ _ _ _ hi]
            exact preservesPresent_refl _

theorem xrandrLoop_preserves (lines : List String) (st st' : XrandrState)
    (h : xrandrLoop lines st = .ok st') :
    st.outputs.length ≤ st'.outputs.length ∧
    ∀ i, i < st.outputs.length →
      PreservesPresent (st.outputs.getD i outputDefault) (st'.outputs.getD i outputDefault) := by
  induction lines generalizing st with
  | nil =>
    have h2 : st' = st := by
      have h3 : Except.ok (ε := PyErr) st = .ok st' := h
      injection h3 with h3
      exact h3.symm
    subst h2
    exact ⟨Nat.le_refl _, fun i _ => preservesPresent_refl _⟩
  | cons line rest ih =>
    rw [show xrandrLoop (line :: rest) st = xrandrStep st line >>= xrandrLoop rest from rfl] at h
    obtain ⟨mid, hmid, hrest⟩ := exceptBind_ok h
    obtain ⟨hlen₁, hpres₁⟩ := xrandrStep_preserves st mid line hmid
    obtain ⟨hlen₂, hpres₂⟩ := ih mid hrest
    refine ⟨Nat.le_trans hlen₁ hlen₂, fun i hi => ?_⟩
    exact preservesPresent_trans (hpres₁ i hi) (hpres₂ i (Nat.lt_of_lt_of_le hi hlen₁))

theorem matchMode_excludes_head_lines {line : String} {p : String × String}
    (h : matchMode line = some p) :
    isDisconnectedLine line = false ∧ isConnectedLine line = false := by
  unfold matchMode at h
  split at h
  next rest heq =>
    constructor <;>
      simp [isDisconnectedLine, isConnectedLine, heq, List.takeWhile_cons, isPySpace]
  next => exact Option.noConfusion h

theorem xrandrStep_mode_fill (st : XrandrState) (line res hz : String)
    (m : List String) (i : Nat)
    (hm : matchMode line = some (res, hz))
    (hmap : st.mapped = some m) (hidx : st.idx = some i) :
    xrandrStep st line =
      .ok ⟨st.mapped, st.idx,
        modifyAt i (fillOutput (.vstr res) (refreshVal hz) (modeSize m)) st.outputs⟩ := by
  obtain ⟨hd, hc⟩ := matchMode_excludes_head_lines hm
  unfold xrandrStep
  rw [hd, hc]
  simp only [Bool.false_eq_true, if_false]
  rw [hm, hmap, hidx]

theorem fillOutput_spec (res refresh size : IVal) (o : OutputRec) :
    (fillOutput res refresh size o).res = (if o.res.isEmptyMark then res else o.res) ∧
    (fillOutput res refresh size o).refresh =
      (if o.refresh.isEmptyMark then refresh else o.refresh) ∧
    (fillOutput res refresh size o).size = (if o.size.isEmptyMark then size else o.size) :=
  ⟨rfl, rfl, rfl⟩

/-- C3: the xrandr fallback never regresses a primary value, and fills
exactly the absent fields.  (i) Over any xrandr output and any initial
outputs list, every field of a primary-probe record that was present
(`res`, `refresh`, `size` not `None`/`""`/`"N/A"`) survives the whole scan
unchanged.  (ii) An active-mode line processed while a connected output is
matched to primary record `i` updates exactly that record through the fill
loop with the xrandr-parsed resolution, refresh and size.  (iii) The fill
loop writes the xrandr value into a field iff the primary value was the
absence marker, and keeps the primary value otherwise — even when the two
disagree. -/
theorem C3_xrandr_never_regresses :
    (∀ (lines : List String) (st st' : XrandrState),
      xrandrLoop lines st = .ok st' →
      ∀ i, i < st.outputs.length →
        PreservesPresent (st.outputs.getD i outputDefault)
          (st'.outputs.getD i outputDefault)) ∧
    (∀ (st : XrandrState) (line res hz : String) (m : List String) (i : Nat),
      matchMode line = some (res, hz) → st.mapped = some m → st.idx = some i →
      xrandrStep st line =
        .ok ⟨st.mapped, st.idx,
          modifyAt i (fillOutput (.vstr res) (refreshVal hz) (modeSize m)) st.outputs⟩) ∧
    (∀ (res refresh size : IVal) (o : OutputRec),
      (fillOutput res refresh size o).res = (if o.res.isEmptyMark then res else o.res) ∧
      (fillOutput res refresh size o).refresh =
        (if o.refresh.isEmptyMark then refresh else o.refresh) ∧
      (fillOutput res refresh size o).size =
        (if o.size.isEmptyMark then size else o.size)) :=
  ⟨fun lines st st' h => (xrandrLoop_preserves lines st st' h).2,
   xrandrStep_mode_fill, fillOutput_spec⟩

/-- C3 (witness): a two-line xrandr output (a connected line matching the
primary record by name, then an active mode line) leaves the present
`res` and `refresh` of the primary record untouched. -/
theorem C3_witness :
    PreservesPresent
      ((⟨none, none, [outputRecDP1]⟩ : XrandrState).outputs.getD 0 outputDefault)
      ((⟨some ["DP-1", "connected"], some 0, [outputRecDP1]⟩ : XrandrState).outputs.getD 0
        outputDefault) :=
  (C3_xrandr_never_regresses.1 ["DP-1 connected", "   800x600 ...*"]
    ⟨none, none, [outputRecDP1]⟩ ⟨some ["DP-1", "connected"], some 0, [outputRecDP1]⟩
    rfl) 0 (by decide)

/-! ## C4 and C8: tree-walker path properties -/

theorem nodeRecord_root_pos (mp : List (Option String)) (d : MountData) (r : TravResults)
    (h : mp.contains (some "/") = true) : (nodeRecord mp d r).root = some d := by
  have hne : mp.isEmpty = false := by
    cases mp with
    | nil => exact absurd h (by simp)
    | cons a l => rfl
  unfold nodeRecord
  rw [hne, h]
  simp only [Bool.not_false, if_true]
  split <;> rfl

theorem nodeRecord_root_neg (mp : List (Option String)) (d : MountData) (r : TravResults)
    (h : mp.contains (some "/") = false) : (nodeRecord mp d r).root = r.root := by
  unfold nodeRecord
  cases hmp : mp.isEmpty with
  | true => simp only [hmp, Bool.not_true, Bool.false_eq_true, if_false]
  | false =>
    rw [h]
    simp only [hmp, Bool.not_false, if_true, Bool.false_eq_true, if_false]
    split <;> rfl

theorem nodeRecord_home_pos (mp : List (Option String)) (d : MountData) (r : TravResults)
    (h : mp.contains (some "/home") = true) :
    (nodeRecord mp d r).home =
      some (if mp.contains (some "/") then { d with subvol := some true } else d) := by
  have hne : mp.isEmpty = false := by
    cases mp with
    | nil => exact absurd h (by simp)
    | cons a l => rfl
  unfold nodeRecord
  rw [hne, h]
  simp only [Bool.not_false, if_true]

theorem nodeRecord_home_neg (mp : List (Option String)) (d : MountData) (r : TravResults)
    (h : mp.contains (some "/home") = false) : (nodeRecord mp d r).home = r.home := by
  unfold nodeRecord
  cases hmp : mp.isEmpty with
  | true => simp only [hmp, Bool.not_true, Bool.false_eq_true, if_false]
  | false =>
    rw [h]
    simp only [hmp, Bool.not_false, if_true, Bool.false_eq_true, if_false]
    split <;> rfl

theorem traverseList_cons (c : BlockNode) (cs : List BlockNode) (res : TravResults)
    (ms : Nat) (ic : Bool) :
    traverseList (c :: cs) res ms ic = traverseList cs (traverse c res ms ic) ms ic := rfl

theorem traverseList_append (l₁ l₂ : List BlockNode) (res : TravResults) (ms : Nat)
    (ic : Bool) :
    traverseList (l₁ ++ l₂) res ms ic = traverseList l₂ (traverseList l₁ res ms ic) ms ic := by
  induction l₁ generalizing res with
  | nil => rfl
  | cons c cs ih => rw [List.cons_append, traverseList_cons, traverseList_cons, ih]

theorem traverse_step (t f : Option String) (sz : Nat) (mp : List (Option String))
    (ch : List BlockNode) (res : TravResults) (ms : Nat) (ic : Bool) :
    traverse (.mk t f sz mp ch) res ms ic =
      traverseList ch
        (nodeRecord mp ⟨((min ms sz : Nat) : ℚ) / 1024 ^ 3, f,
          ic || t == some "crypt" || f == some "crypto_LUKS", none⟩ res)
        (min ms sz) (ic || t == some "crypt" || f == some "crypto_LUKS") := rfl

theorem countMp_step (m : String) (t f : Option String) (sz : Nat)
    (mp : List (Option String)) (ch : List BlockNode) :
    countMp m (.mk t f sz mp ch) =
      (if mp.contains (some m) then 1 else 0) + countMpList m ch := rfl

theorem countMpList_append (m : String) (l₁ l₂ : List BlockNode) :
    countMpList m (l₁ ++ l₂) = countMpList m l₁ + countMpList m l₂ := by
  induction l₁ with
  | nil => simp [countMpList]
  | cons c cs ih =>
    rw [List.cons_append]
    show countMp m c + countMpList m (cs ++ l₂) = countMp m c + countMpList m cs + countMpList m l₂
    rw [ih]
    omega

theorem countMp_le_countMpList (m : String) {c : BlockNode} {l : List BlockNode}
    (h : c ∈ l) : countMp m c ≤ countMpList m l := by
  induction l with
  | nil => exact absurd h (List.not_mem_nil c)
  | cons a rest ih =>
    rcases List.mem_cons.mp h with rfl | hmem
    · show countMp m c ≤ countMp m c + countMpList m rest
      omega
    · have := ih hmem
      show countMp m c ≤ countMp m a + countMpList m rest
      omega

theorem countMp_pos_of_path {m : String} {b n : BlockNode} {p : List BlockNode}
    (h : IsPath b p n) (hc : n.mountpoints.contains (some m) = true) :
    1 ≤ countMp m b := by
  induction h with
  | here b0 =>
    rcases b0 with ⟨t, f, sz, mp, ch⟩
    rw [countMp_step]
    rw [show (BlockNode.mk t f sz mp ch).mountpoints = mp from rfl] at hc
    rw [hc]
    simp
  | step hmem hpath ih =>
    rename_i b c n0 p0
    rcases b with ⟨t, f, sz, mp, ch⟩
    rw [countMp_step]
    have h1 := countMp_le_countMpList m
      (show c ∈ ch from hmem)
    have h2 := ih hc
    omega

theorem traverse_frame_aux (m : String) (hm : m = "/" ∨ m = "/home") (k : Nat) :
    (∀ b : BlockNode, sizeOf b ≤ k → countMp m b = 0 → ∀ res ms ic,
      recordedSlot m (traverse b res ms ic) = recordedSlot m res) ∧
    (∀ l : List BlockNode, sizeOf l ≤ k → countMpList m l = 0 → ∀ res ms ic,
      recordedSlot m (traverseList l res ms ic) = recordedSlot m res) := by
  induction k with
  | zero =>
    constructor
    · rintro ⟨t, f, sz, mp, ch⟩ hb
      simp only [BlockNode.mk.sizeOf_spec] at hb
      omega
    · rintro (_ | ⟨c, cs⟩) hl
      · simp only [List.nil.sizeOf_spec] at hl
        omega
      · simp only [List.cons.sizeOf_spec] at hl
        omega
  | succ k ih =>
    obtain ⟨ihN, ihL⟩ := ih
    constructor
    · rintro ⟨t, f, sz, mp, ch⟩ hb hcount res ms ic
      have hsz : sizeOf ch ≤ k := by
        simp only [BlockNode.mk.sizeOf_spec] at hb
        have h1 : 1 ≤ sizeOf t := by cases t <;> simp
        omega
      rw [countMp_step] at hcount
      have hc : mp.contains (some m) = false := by
        by_contra hcc
        rw [Bool.not_eq_false] at hcc
        rw [hcc] at hcount
        simp at hcount
      have hcl : countMpList m ch = 0 := by
        rw [hc] at hcount
        simpa using hcount
      rw [traverse_step]
      rw [ihL ch hsz hcl]
      rcases hm with rfl | rfl
      · show (nodeRecord mp _ res).root = res.root
        exact nodeRecord_root_neg _ _ _ hc
      · show (nodeRecord mp _ res).home = res.home
        exact nodeRecord_home_neg _ _ _ hc
    · rintro (_ | ⟨c, cs⟩) hl hcl res ms ic
      · rfl
      · have hc0 : countMp m c = 0 ∧ countMpList m cs = 0 := by
          have : countMp m c + countMpList m cs = 0 := hcl
          omega
        have hszc : sizeOf c ≤ k := by
          simp only [List.cons.sizeOf_spec] at hl
          omega
        have hszcs : sizeOf cs ≤ k := by
          simp only [List.cons.sizeOf_spec] at hl
          have h1 : 1 ≤ sizeOf c := by
            rcases c with ⟨t, f, sz, mp, ch⟩
            simp only [BlockNode.mk.sizeOf_spec]
            omega
          omega
        rw [traverseList_cons, ihL cs hszcs hc0.2, ihN c hszc hc0.1]

theorem traverse_frame {m : String} (hm : m = "/" ∨ m = "/home") {b : BlockNode}
    (hcount : countMp m b = 0) (res : TravResults) (ms : Nat) (ic : Bool) :
    recordedSlot m (traverse b res ms ic) = recordedSlot m res :=
  (traverse_frame_aux m hm (sizeOf b)).1 b (Nat.le_refl _) hcount res ms ic

theorem traverseList_frame {m : String} (hm : m = "/" ∨ m = "/home")
    {l : List BlockNode} (hcount : countMpList m l = 0) (res : TravResults) (ms : Nat)
    (ic : Bool) :
    recordedSlot m (traverseList l res ms ic) = recordedSlot m res :=
  (traverse_frame_aux m hm (sizeOf l)).2 l (Nat.le_refl _) hcount res ms ic

theorem pathMinSize_cons (ms : Nat) (x : BlockNode) (p : List BlockNode) :
    pathMinSize ms (x :: p) = pathMinSize (min ms x.size) p := rfl

theorem pathCrypt_cons (ic : Bool) (x : BlockNode) (p : List BlockNode) :
    pathCrypt ic (x :: p) =
      pathCrypt (ic || x.btype == some "crypt" || x.fstype == some "crypto_LUKS") p := rfl

theorem pathMinSize_le_init (ms : Nat) (p : List BlockNode) : pathMinSize ms p ≤ ms := by
  induction p generalizing ms with
  | nil => exact Nat.le_refl _
  | cons x rest ih =>
    rw [pathMinSize_cons]
    exact Nat.le_trans (ih (min ms x.size)) (Nat.min_le_left _ _)

theorem pathMinSize_le_mem (ms : Nat) (p : List BlockNode) :
    ∀ x ∈ p, pathMinSize ms p ≤ x.size := by
  induction p generalizing ms with
  | nil => intro x hx; exact absurd hx (List.not_mem_nil x)
  | cons y rest ih =>
    intro x hx
    rcases List.mem_cons.mp hx with rfl | hmem
    · rw [pathMinSize_cons]
      exact Nat.le_trans (pathMinSize_le_init _ _) (Nat.min_le_right _ _)
    · rw [pathMinSize_cons]
      exact ih (min ms y.size) x hmem

theorem pathMinSize_attained (ms : Nat) (p : List BlockNode) :
    pathMinSize ms p = ms ∨ ∃ x ∈ p, pathMinSize ms p = x.size := by
  induction p generalizing ms with
  | nil => exact Or.inl rfl
  | cons y rest ih =>
    rw [pathMinSize_cons]
    rcases ih (min ms y.size) with h | ⟨x, hx, he⟩
    · rcases Nat.le_total ms y.size with hle | hle
      · exact Or.inl (h.trans (Nat.min_eq_left hle))
      · exact Or.inr ⟨y, List.mem_cons_self _ _, h.trans (Nat.min_eq_right hle)⟩
    · exact Or.inr ⟨x, List.mem_cons_of_mem _ hx, he⟩

theorem pathCrypt_eq_any (ic : Bool) (p : List BlockNode) :
    pathCrypt ic p = (ic || p.any (fun x => isCryptNode x)) := by
  induction p generalizing ic with
  | nil => simp [pathCrypt]
  | cons x rest ih =>
    rw [pathCrypt_cons, ih]
    simp [isCryptNode, List.any_cons, Bool.or_assoc]

/-- A path starts at its root. -/
theorem isPath_head_mem {b n : BlockNode} {p : List BlockNode} (h : IsPath b p n) :
    b ∈ p := by
  cases h with
  | here => exact List.mem_cons_self _ _
  | step hmem hpath => exact List.mem_cons_self _ _

/-- The workhorse for C4 and C8: under a unique carrier of the watched
mountpoint `m`, the recorded entry for `m` carries exactly the path minimum
of the running size, the node's filesystem type, the path-OR of the crypt
flag, and — for `/home` — the subvolume mark iff the carrier node itself
also holds `/`. -/
theorem traverse_records (m : String) (hm : m = "/" ∨ m = "/home")
    {b n : BlockNode} {p : List BlockNode}
    (hpath : IsPath b p n) :
    n.mountpoints.contains (some m) = true →
    countMp m b = 1 → ∀ (res : TravResults) (ms : Nat) (ic : Bool),
      recordedSlot m (traverse b res ms ic) =
        some ⟨((pathMinSize ms p : Nat) : ℚ) / 1024 ^ 3, n.fstype, pathCrypt ic p,
          if m = "/home" ∧ n.mountpoints.contains (some "/") = true then some true
          else none⟩ := by
  induction hpath with
  | here b0 =>
    intro hcarry huniq res ms ic
    rcases b0 with ⟨t, f, sz, mp, ch⟩
    rw [show (BlockNode.mk t f sz mp ch).mountpoints = mp from rfl] at hcarry ⊢
    rw [countMp_step, hcarry] at huniq
    have hcl : countMpList m ch = 0 := by simpa using huniq
    rw [traverse_step, traverseList_frame hm hcl]
    rw [show (BlockNode.mk t f sz mp ch).fstype = f from rfl]
    rw [show pathMinSize ms [BlockNode.mk t f sz mp ch] =
      min ms sz from rfl]
    rw [show pathCrypt ic [BlockNode.mk t f sz mp ch] =
      (ic || t == some "crypt" || f == some "crypto_LUKS") from rfl]
    rcases hm with rfl | rfl
    · show (nodeRecord mp _ res).root = _
      rw [nodeRecord_root_pos _ _ _ hcarry]
      simp
    · show (nodeRecord mp _ res).home = _
      rw [nodeRecord_home_pos _ _ _ hcarry]
      rcases hroot : mp.contains (some "/") with _ | _
      · simp [hroot]
      · simp [hroot]
  | step hmem hpath ih =>
    intro hcarry huniq res ms ic
    rename_i b0 c n0 p0
    rcases b0 with ⟨t, f, sz, mp, ch⟩
    have hmemch : c ∈ ch := hmem
    have hposc : 1 ≤ countMp m c := countMp_pos_of_path hpath hcarry
    obtain ⟨l₁, l₂, hch⟩ := List.append_of_mem hmemch
    have hsplit : countMpList m ch =
        countMpList m l₁ + (countMp m c + countMpList m l₂) := by
      rw [hch, countMpList_append]
      rfl
    rw [countMp_step] at huniq
    have hcontains : mp.contains (some m) = false := by
      by_contra hcc
      rw [Bool.not_eq_false] at hcc
      rw [hcc] at huniq
      simp only [if_true] at huniq
      omega
    have huniq2 : countMpList m ch = 1 := by
      rw [hcontains] at huniq
      simpa using huniq
    have hcounts : countMp m c = 1 ∧ countMpList m l₁ = 0 ∧ countMpList m l₂ = 0 := by
      omega
    rw [traverse_step, hch, traverseList_append, traverseList_cons]
    rw [traverseList_frame hm hcounts.2.2]
    rw [ih hcarry hcounts.1]
    rfl

/-- C4: tree-walker monotonicity.  For a path from a tree root to the unique
node carrying a watched mountpoint (`/` or `/home`), the recorded entry's
size is the minimum of the size fields along that path (it is a lower bound
of every node's size and attained by one of them, seeded with the root size
exactly as `get_disks_metrics` seeds `traverse`), and its crypt flag is true
iff some node on the path — the node itself or any ancestor — is a crypt
device or a `crypto_LUKS` filesystem; the OR accumulates down the path, so
a flag once true is never unset at the recorded descendant. -/
theorem C4_tree_walker_monotonicity (b n : BlockNode) (p : List BlockNode) (m : String)
    (hm : m = "/" ∨ m = "/home")
    (hpath : IsPath b p n)
    (hcarry : n.mountpoints.contains (some m) = true)
    (huniq : countMp m b = 1) :
    ∃ d, recordedSlot m (traverse b ⟨none, none⟩ b.size false) = some d ∧
      d.size_gb = ((pathMinSize b.size p : Nat) : ℚ) / 1024 ^ 3 ∧
      (∀ x ∈ p, pathMinSize b.size p ≤ x.size) ∧
      (∃ x ∈ p, pathMinSize b.size p = x.size) ∧
      (d.crypt = true ↔ ∃ x ∈ p, isCryptNode x = true) := by
  refine ⟨_, traverse_records m hm hpath hcarry huniq ⟨none, none⟩ b.size false, rfl,
    pathMinSize_le_mem _ _, ?_, ?_⟩
  · rcases pathMinSize_attained b.size p with h | h
    · exact ⟨b, isPath_head_mem hpath, h⟩
    · exact h
  · show pathCrypt false p = true ↔ _
    rw [pathCrypt_eq_any]
    simp [List.any_eq_true]

/-- C4 (witness): the monotonicity instantiated on a disk holding a LUKS
container holding a btrfs node mounted at `/`: recorded size is the 460-byte
leaf minimum along the 500/480/460 path and the crypt flag is true through
the container. -/
theorem C4_tree_walker_witness :
    ∃ d, recordedSlot "/" (traverse treeSameNode ⟨none, none⟩ treeSameNode.size false) =
        some d ∧
      d.size_gb = ((pathMinSize treeSameNode.size
        [treeSameNode, treeSameNodeCrypt, treeSameNodeLeaf] : Nat) : ℚ) / 1024 ^ 3 ∧
      (∀ x ∈ [treeSameNode, treeSameNodeCrypt, treeSameNodeLeaf],
        pathMinSize treeSameNode.size [treeSameNode, treeSameNodeCrypt, treeSameNodeLeaf]
          ≤ x.size) ∧
      (∃ x ∈ [treeSameNode, treeSameNodeCrypt, treeSameNodeLeaf],
        pathMinSize treeSameNode.size [treeSameNode, treeSameNodeCrypt, treeSameNodeLeaf]
          = x.size) ∧
      (d.crypt = true ↔
        ∃ x ∈ [treeSameNode, treeSameNodeCrypt, treeSameNodeLeaf], isCryptNode x = true) :=
  C4_tree_walker_monotonicity treeSameNode treeSameNodeLeaf
    [treeSameNode, treeSameNodeCrypt, treeSameNodeLeaf] "/" (Or.inl rfl)
    (IsPath.step (List.mem_cons_self _ _)
      (IsPath.step (List.mem_cons_self _ _) (IsPath.here _)))
    (by decide) (by decide)

/-- C8 (counterexample): the subvolume marking does *not* fire across nodes.
In a tree whose root-mounted node has a child carrying `/home`, the walker
records the root entry and, later in the same tree, the home entry — but
that home entry's `subvol` key is absent (`has_root` is local to each node's
own mountpoint set, mdd.py lines 579-588). -/
theorem C8_cross_node_home_unmarked :
    (traverse treeCrossNode ⟨none, none⟩ treeCrossNode.size false).root.isSome = true ∧
    (traverse treeCrossNode ⟨none, none⟩ treeCrossNode.size false).home.map
      MountData.subvol = some none :=
  ⟨rfl, by decide⟩

/-- C8 (amended): the home entry is marked `subvol = true` exactly when the
*same node's* mountpoint set contains both `/` and `/home`; a `/home`
carried by a different node than `/` — even a descendant recorded later in
the same tree — produces a home entry with no `subvol` key. -/
theorem C8_home_subvol_iff_same_node (b n : BlockNode) (p : List BlockNode)
    (hpath : IsPath b p n)
    (hcarry : n.mountpoints.contains (some "/home") = true)
    (huniq : countMp "/home" b = 1) :
    (traverse b ⟨none, none⟩ b.size false).home.map MountData.subvol =
      some (if n.mountpoints.contains (some "/") = true then some true else none) := by
  have h := traverse_records "/home" (Or.inr rfl) hpath hcarry huniq ⟨none, none⟩ b.size false
  have hslot : recordedSlot "/home" (traverse b ⟨none, none⟩ b.size false) =
      (traverse b ⟨none, none⟩ b.size false).home := by
    rw [recordedSlot, if_neg (by decide)]
  rw [hslot] at h
  rw [h]
  simp

/-- C8 (witness): on the btrfs-style node carrying both `/` and `/home`,
the recorded home entry is marked as a subvolume. -/
theorem C8_home_subvol_witness :
    (traverse treeSameNode ⟨none, none⟩ treeSameNode.size false).home.map
      MountData.subvol =
      some (if treeSameNodeLeaf.mountpoints.contains (some "/") = true then some true
        else none) :=
  C8_home_subvol_iff_same_node treeSameNode treeSameNodeLeaf
    [treeSameNode, treeSameNodeCrypt, treeSameNodeLeaf]
    (IsPath.step (List.mem_cons_self _ _)
      (IsPath.step (List.mem_cons_self _ _) (IsPath.here _)))
    (by decide) (by decide)

end Mdd
